import Mathlib

/-!
Verification development for the receipt structured-data extraction engine
of the OCR microservice (`app.py`).  The Python text-processing pipeline is
shallowly embedded over `List Char`: every regular expression of the source
is compiled by hand into an executable character-level matcher with the
exact semantics of Python's `re` module on the shapes of patterns the
source uses (leftmost match, ordered alternation, greedy quantifiers with
the backtracking these concrete patterns can actually exercise, `\b` word
boundaries, `re.I` case folding).  Monetary amounts are modelled as exact
rationals.
-/

namespace OcrService

/-- `Str` abbreviates the character-list representation of Python strings. -/
abbrev Str := List Char

/-- Python `\w` (ASCII fragment): letters, digits and underscore. -/
def isWordC (c : Char) : Bool := c.isAlphanum || c == '_'

/-- Python `\s` (ASCII fragment): space, tab, newline, CR, VT, FF. -/
def isSpaceC (c : Char) : Bool :=
  c == ' ' || c == '\t' || c == '\n' || c == '\r' || c.val == 11 || c.val == 12

/-- Greedy `\s*`: drop the maximal run of whitespace. -/
def dropSpaces (s : Str) : Str := s.dropWhile isSpaceC

/-- `\b` at the start of a match whose first character is a word character:
holds iff the preceding character (if any) is not a word character. -/
def bStart (prev : Option Char) : Bool :=
  match prev with
  | none => true
  | some c => !(isWordC c)

/-- `\b` after a word character: holds iff the next character (if any) is
not a word character. -/
def bEnd (s : Str) : Bool :=
  match s with
  | [] => true
  | c :: _ => !(isWordC c)

/-- `\b` after a non-word character: holds iff the next character exists
and is a word character. -/
def bNextWord (s : Str) : Bool :=
  match s with
  | [] => false
  | c :: _ => isWordC c

/-- Case-insensitive literal match (pattern given in lowercase). -/
def eatCI : Str → Str → Option Str
  | [], s => some s
  | _ :: _, [] => none
  | p :: ps, c :: cs => if c.toLower == p then eatCI ps cs else none

/-- Case-sensitive literal match. -/
def eatCS : Str → Str → Option Str
  | [], s => some s
  | _ :: _, [] => none
  | p :: ps, c :: cs => if c == p then eatCS ps cs else none

/-- Case-insensitive word literal. -/
def wordCI (w : String) (s : Str) : Option Str := eatCI w.toList s

/-- Case-sensitive word literal. -/
def wordCS (w : String) (s : Str) : Option Str := eatCS w.toList s

/-- Continue a match from an optional intermediate result. -/
def tryO (o : Option Str) (k : Str → Bool) : Bool :=
  match o with
  | some r => k r
  | none => false

/-- `w1\s*w2\s*...\s*wn` for case-insensitive word literals. -/
def chainCI : List String → Str → Option Str
  | [], s => some s
  | [w], s => wordCI w s
  | w :: w2 :: ws, s =>
    match wordCI w s with
    | some r => chainCI (w2 :: ws) (dropSpaces r)
    | none => none

/-- Matcher for `\b ph \b` where `ph` ranges over a list of alternative
space-separated word chains. -/
def phraseAt (phrases : List (List String)) (prev : Option Char) (s : Str) : Bool :=
  bStart prev && phrases.any (fun ph =>
    match chainCI ph s with
    | some r => bEnd r
    | none => false)

/-- `re.search` driver for a boolean position matcher: true iff the matcher
succeeds at some position, threading the preceding character for `\b`. -/
def searchFrom (m : Option Char → Str → Bool) : Option Char → Str → Bool
  | prev, [] => m prev []
  | prev, c :: t => m prev (c :: t) || searchFrom m (some c) t

/-- `re.search` at the top level (no preceding character). -/
def searchTop (m : Option Char → Str → Bool) (s : Str) : Bool := searchFrom m none s

/-- Search for a `\b`-anchored phrase alternation. -/
def phraseSearch (phrases : List (List String)) (s : Str) : Bool :=
  searchTop (phraseAt phrases) s

/-- `re.search` driver for matchers that return a value, yielding the value
of the leftmost match. -/
def searchFromO (m : Option Char → Str → Option α) : Option Char → Str → Option α
  | prev, [] => m prev []
  | prev, c :: t =>
    match m prev (c :: t) with
    | some a => some a
    | none => searchFromO m (some c) t

/-- Value-returning search at the top level. -/
def searchTopO (m : Option Char → Str → Option α) (s : Str) : Option α :=
  searchFromO m none s

/-- `re.sub(pattern, "", s)` driver: the matcher returns the remainder of
the string after the match; matched spans are dropped, the scan resumes
after each match (leftmost, non-overlapping). -/
def subAllAux (m : Option Char → Str → Option Str) : Nat → Option Char → Str → Str
  | 0, _, s => s
  | fuel + 1, prev, s =>
    match m prev s with
    | some r => subAllAux m fuel ((s.take (s.length - r.length)).getLast?) r
    | none =>
      match s with
      | [] => []
      | c :: t => c :: subAllAux m fuel (some c) t

/-- Top-level `re.sub(pattern, "", s)`. -/
def subAll (m : Option Char → Str → Option Str) (s : Str) : Str :=
  subAllAux m s.length none s

/-- Numeric value of a digit string. -/
def natDigits (s : Str) : Nat := s.foldl (fun a c => a * 10 + (c.toNat - 48)) 0

/-- Python `float` on a captured group of shape `\d{1,6}(?:\.\d{1,2})?`,
modelled exactly as a rational. -/
def parseAmount (g : Str) : ℚ :=
  let ip := g.takeWhile Char.isDigit
  let rest := g.drop ip.length
  match rest with
  | '.' :: fp => mkRat (natDigits ip * 10 ^ fp.length + natDigits fp) (10 ^ fp.length)
  | _ => (natDigits ip : ℚ)

/-- The apostrophe character `'`. -/
def aposC : Char := Char.ofNat 39

/-- The right single quotation mark `’`. -/
def rsquoC : Char := Char.ofNat 0x2019

/-- Optional `['’]`: consume one apostrophe-like character if present. -/
def eatApos (s : Str) : Str :=
  match s with
  | c :: t => if c == aposC || c == rsquoC then t else s
  | [] => s

/-!  ## Currency tokens and price numbers

`CURRENCY_RE = (Rs\.?|₹|\$|£|€)` with `re.IGNORECASE`; the same token also
anchors `CURRENCY_PRICE_RE` and the first branch of `PRICE_RE`.
`QTY_PRICE_RE` embeds the token case-sensitively (it is compiled without
flags).  -/

/-- Match one currency token at the head of `s`; returns the matched text
and the remainder.  `ci` selects case-insensitive matching of `Rs`. -/
def eatCurSymT (ci : Bool) (s : Str) : Option (Str × Str) :=
  match s with
  | [] => none
  | c :: t =>
    if c == '₹' || c == '$' || c == '£' || c == '€' then some ([c], t)
    else if c == 'R' || (ci && c == 'r') then
      match t with
      | c2 :: t2 =>
        if c2 == 's' || (ci && c2 == 'S') then
          match t2 with
          | '.' :: t3 => some ([c, c2, '.'], t3)
          | _ => some ([c, c2], t2)
        else none
      | [] => none
    else none

/-- Match `\d{1,6}(?:\.\d{1,2})?` at the head of `s` (greedy, exactly the
backtracking-free behaviour the pattern has); returns the captured text
and the remainder. -/
def eatNum (s : Str) : Option (Str × Str) :=
  let run := s.takeWhile Char.isDigit
  if run.isEmpty then none
  else
    let ip := run.take 6
    let rest := s.drop ip.length
    match rest with
    | '.' :: r2 =>
      let fp := (r2.takeWhile Char.isDigit).take 2
      if fp.isEmpty then some (ip, rest)
      else some (ip ++ '.' :: fp, r2.drop fp.length)
    | _ => some (ip, rest)

/-- `CURRENCY_PRICE_RE` at one position: currency token, `\s*`, number;
returns the captured number text and the remainder of the string. -/
def curPriceAt (s : Str) : Option (Str × Str) :=
  match eatCurSymT true s with
  | some (_, r) => eatNum (dropSpaces r)
  | none => none

/-- `CURRENCY_PRICE_RE.findall` (fuelled scan; leftmost, non-overlapping). -/
def curPriceFindallAux : Nat → Str → List Str
  | 0, _ => []
  | fuel + 1, s =>
    match curPriceAt s with
    | some (g, r) => g :: curPriceFindallAux fuel r
    | none =>
      match s with
      | [] => []
      | _ :: t => curPriceFindallAux fuel t

/-- `CURRENCY_PRICE_RE.findall(s)`. -/
def currencyFindall (s : Str) : List Str := curPriceFindallAux s.length s

/-- `DECIMAL_PRICE_RE = \b(\d{1,6}\.\d{2})\b` at one position: the digit
run must be 1–6 long and followed by `.` plus exactly two digits and a
closing word boundary. -/
def decAt (prev : Option Char) (s : Str) : Option (Str × Str) :=
  if bStart prev then
    let run := s.takeWhile Char.isDigit
    if run.length < 1 || 6 < run.length then none
    else
      match s.drop run.length with
      | '.' :: r2 =>
        match r2 with
        | a :: b :: r3 =>
          if a.isDigit && b.isDigit && bEnd r3 then
            some (run ++ '.' :: a :: b :: [], r3)
          else none
        | _ => none
      | _ => none
  else none

/-- `DECIMAL_PRICE_RE.findall` (fuelled scan threading the previous
character for the leading `\b`). -/
def decFindallAux : Nat → Option Char → Str → List Str
  | 0, _, _ => []
  | fuel + 1, prev, s =>
    match decAt prev s with
    | some (g, r) => g :: decFindallAux fuel g.getLast? r
    | none =>
      match s with
      | [] => []
      | c :: t => decFindallAux fuel (some c) t

/-- `DECIMAL_PRICE_RE.findall(s)`. -/
def decimalFindall (s : Str) : List Str := decFindallAux s.length none s

/-- Existence of a `DECIMAL_PRICE_RE` match anywhere in `s`. -/
def decSearch (s : Str) : Bool := searchTop (fun p t => (decAt p t).isSome) s

/-- `CURRENCY_RE.search(s)`: leftmost currency token, as matched text. -/
def curSearchFirst (s : Str) : Option Str :=
  searchTopO (fun _ t => (eatCurSymT true t).map Prod.fst) s

/-- `sym.lower().startswith("rs")` on a `CURRENCY_RE` match. -/
def rsFamily (t : Str) : Bool :=
  match t with
  | c1 :: c2 :: _ => (c1 == 'R' || c1 == 'r') && (c2 == 's' || c2 == 'S')
  | _ => false

/-- `_find_best_price`: last currency-anchored number, else last bare
two-decimal number, else nothing (bare integers are never prices). -/
def findBestPrice (s : Str) : Option ℚ :=
  match (currencyFindall s).getLast? with
  | some g => some (parseAmount g)
  | none => (decimalFindall s).getLast?.map parseAmount

/-!  ## Keyword pattern tables -/

/-- `\bgrand\s*total\b`. -/
def kwGrandTotal (s : Str) : Bool := phraseSearch [["grand", "total"]] s

/-- `\bnet\s*(?:amount|total|payable)\b`. -/
def kwNetAmount (s : Str) : Bool :=
  phraseSearch [["net", "amount"], ["net", "total"], ["net", "payable"]] s

/-- Tail of `total\s*(?:amount|payable|due)?\b` after the word `total`. -/
def totalTail (r : Str) : Bool :=
  (["amount", "payable", "due"].any fun w => tryO (wordCI w (dropSpaces r)) bEnd) || bEnd r

/-- `\b(?:order\s*)?total\s*(?:amount|payable|due)?\b` at one position. -/
def kwTotalAt (prev : Option Char) (s : Str) : Bool :=
  bStart prev &&
    ((match wordCI "order" s with
      | some r => tryO (wordCI "total" (dropSpaces r)) totalTail
      | none => false) ||
     tryO (wordCI "total" s) totalTail)

/-- `\b(?:order\s*)?total\s*(?:amount|payable|due)?\b`. -/
def kwTotal (s : Str) : Bool := searchTop kwTotalAt s

/-- `\bamount\s*(?:due|payable|tendered)\b`. -/
def kwAmountDue (s : Str) : Bool :=
  phraseSearch [["amount", "due"], ["amount", "payable"], ["amount", "tendered"]] s

/-- `\bbalance\s*due\b`. -/
def kwBalanceDue (s : Str) : Bool := phraseSearch [["balance", "due"]] s

/-- `\bpayable\b`. -/
def kwPayable (s : Str) : Bool := phraseSearch [["payable"]] s

/-- `TOTAL_KEYWORDS`, in source order. -/
def totalKeywords : List (Str → Bool) :=
  [kwGrandTotal, kwNetAmount, kwTotal, kwAmountDue, kwBalanceDue, kwPayable]

/-- Any total keyword matches. -/
def anyTotalKw (s : Str) : Bool := totalKeywords.any (fun k => k s)

/-- `\bsub[\s\-]?total\b` at one position: `sub`, at most one space or
hyphen, `total`. -/
def kwSubTotalAt (prev : Option Char) (s : Str) : Bool :=
  bStart prev &&
    tryO (wordCI "sub" s) (fun r =>
      tryO (wordCI "total" r) bEnd ||
      (match r with
       | c :: t => (isSpaceC c || c == '-') && tryO (wordCI "total" t) bEnd
       | [] => false))

/-- `\bsub[\s\-]?total\b`. -/
def kwSubTotal (s : Str) : Bool := searchTop kwSubTotalAt s

/-- Tail of `\s*(?:sub)?total\b` in the merchandise-total keyword. -/
def merchTail (r : Str) : Bool :=
  tryO (wordCI "subtotal" (dropSpaces r)) bEnd || tryO (wordCI "total" (dropSpaces r)) bEnd

/-- `\bmerch(?:andise)?\s*(?:sub)?total\b` at one position. -/
def kwMerchTotalAt (prev : Option Char) (s : Str) : Bool :=
  bStart prev &&
    tryO (wordCI "merch" s) (fun r =>
      (match wordCI "andise" r with
       | some r2 => merchTail r2
       | none => false) || merchTail r)

/-- `\bmerch(?:andise)?\s*(?:sub)?total\b`. -/
def kwMerchTotal (s : Str) : Bool := searchTop kwMerchTotalAt s

/-- `SUBTOTAL_KEYWORDS`, in source order. -/
def subtotalKeywords : List (Str → Bool) := [kwSubTotal, kwMerchTotal]

/-- Any subtotal keyword matches. -/
def anySubtotalKw (s : Str) : Bool := subtotalKeywords.any (fun k => k s)

/-- `\b(?:sales?\s*)?tax\b` at one position. -/
def kwSalesTaxAt (prev : Option Char) (s : Str) : Bool :=
  bStart prev &&
    ((match chainCI ["sales", "tax"] s with
      | some r => bEnd r
      | none => false) ||
     (match chainCI ["sale", "tax"] s with
      | some r => bEnd r
      | none => false) ||
     tryO (wordCI "tax" s) bEnd)

/-- `\b(?:sales?\s*)?tax\b`. -/
def kwSalesTax (s : Str) : Bool := searchTop kwSalesTaxAt s

/-- `\bstate\s*tax\b`. -/
def kwStateTax (s : Str) : Bool := phraseSearch [["state", "tax"]] s

/-- `\blocal\s*tax\b`. -/
def kwLocalTax (s : Str) : Bool := phraseSearch [["local", "tax"]] s

/-- `\btax\s*\d` at one position. -/
def kwTaxDigitAt (prev : Option Char) (s : Str) : Bool :=
  bStart prev &&
    tryO (wordCI "tax" s) (fun r =>
      match dropSpaces r with
      | c :: _ => c.isDigit
      | [] => false)

/-- `\btax\s*\d`. -/
def kwTaxDigit (s : Str) : Bool := searchTop kwTaxDigitAt s

/-- Case-sensitive `\bWORD\b` search. -/
def wordSearchCS (w : String) (s : Str) : Bool :=
  searchTop (fun prev t => bStart prev && tryO (wordCS w t) bEnd) s

/-- `\bGST\b` (case-sensitive). -/
def kwGST (s : Str) : Bool := wordSearchCS "GST" s

/-- `\bSGST\b` (case-sensitive). -/
def kwSGST (s : Str) : Bool := wordSearchCS "SGST" s

/-- `\bCGST\b` (case-sensitive). -/
def kwCGST (s : Str) : Bool := wordSearchCS "CGST" s

/-- `\bIGST\b` (case-sensitive). -/
def kwIGST (s : Str) : Bool := wordSearchCS "IGST" s

/-- `TAX_KEYWORDS`, in source order. -/
def taxKeywords : List (Str → Bool) :=
  [kwSalesTax, kwStateTax, kwLocalTax, kwTaxDigit, kwGST, kwSGST, kwCGST, kwIGST]

/-- Any tax keyword matches. -/
def anyTaxKw (s : Str) : Bool := taxKeywords.any (fun k => k s)

/-- Tail of `saved?\b` after an optional `you`. -/
def saveTail (s : Str) : Bool :=
  tryO (wordCI "saved" s) bEnd || tryO (wordCI "save" s) bEnd

/-- `\b(?:you\s*)?saved?\b` at one position. -/
def kwSavedAt (prev : Option Char) (s : Str) : Bool :=
  bStart prev &&
    ((match wordCI "you" s with
      | some r => saveTail (dropSpaces r)
      | none => false) || saveTail s)

/-- `\b(?:you\s*)?saved?\b`. -/
def kwSaved (s : Str) : Bool := searchTop kwSavedAt s

/-- `\bsavings?\b`. -/
def kwSavings (s : Str) : Bool := phraseSearch [["savings"], ["saving"]] s

/-- `\bdiscount\b`. -/
def kwDiscount (s : Str) : Bool := phraseSearch [["discount"]] s

/-- `\bcoupon\b`. -/
def kwCoupon (s : Str) : Bool := phraseSearch [["coupon"]] s

/-- `\brollback\b`. -/
def kwRollback (s : Str) : Bool := phraseSearch [["rollback"]] s

/-- `\bmarkdown\b`. -/
def kwMarkdown (s : Str) : Bool := phraseSearch [["markdown"]] s

/-- `\bprice\s*cut\b`. -/
def kwPriceCut (s : Str) : Bool := phraseSearch [["price", "cut"]] s

/-- `\bmanager\s*special\b`. -/
def kwManagerSpecial (s : Str) : Bool := phraseSearch [["manager", "special"]] s

/-- `\binstant\s*savings\b`. -/
def kwInstantSavings (s : Str) : Bool := phraseSearch [["instant", "savings"]] s

/-- `\b(?:rewards?|points?)\s*(?:earned|applied|redeemed)\b` at one position. -/
def kwRewardsAt (prev : Option Char) (s : Str) : Bool :=
  bStart prev &&
    (["rewards", "reward", "points", "point"].any fun w1 =>
      tryO (wordCI w1 s) (fun r =>
        ["earned", "applied", "redeemed"].any fun w2 =>
          tryO (wordCI w2 (dropSpaces r)) bEnd))

/-- `\b(?:rewards?|points?)\s*(?:earned|applied|redeemed)\b`. -/
def kwRewards (s : Str) : Bool := searchTop kwRewardsAt s

/-- `SAVINGS_KEYWORDS`, in source order. -/
def savingsKeywords : List (Str → Bool) :=
  [kwSaved, kwSavings, kwDiscount, kwCoupon, kwRollback, kwMarkdown,
   kwPriceCut, kwManagerSpecial, kwInstantSavings, kwRewards]

/-- Any savings keyword matches. -/
def anySavingsKw (s : Str) : Bool := savingsKeywords.any (fun k => k s)

/-- `TOTAL_ITEM_COUNT_RE`: lines that mention "total" but count items. -/
def totalItemCountRe (s : Str) : Bool :=
  phraseSearch
    [["total", "items"], ["total", "item"], ["total", "qty"],
     ["total", "quantities"], ["total", "quantitie"],
     ["items", "sold"], ["items", "total"], ["items", "count"],
     ["item", "sold"], ["item", "total"], ["item", "count"],
     ["qty", "sold"], ["qty", "total"], ["qty", "count"]] s

/-!  ## Noise patterns -/

/-- `\b\d{10,}\b`: a digit run of length ≥ 10 bounded by word boundaries. -/
def noiseLongDigits (s : Str) : Bool :=
  searchTop (fun prev t =>
    bStart prev &&
      (let run := t.takeWhile Char.isDigit
       10 ≤ run.length && bEnd (t.drop run.length))) s

/-- Drop `[\s:]*`. -/
def dropSpaceColon (s : Str) : Str := s.dropWhile (fun c => isSpaceC c || c == ':')

/-- `\bGST(?:IN)?[\s:]*\d` (case-insensitive). -/
def noiseGstin (s : Str) : Bool :=
  searchTop (fun prev t =>
    bStart prev &&
      tryO (wordCI "gst" t) (fun r =>
        (match wordCI "in" r with
         | some r2 =>
           (match dropSpaceColon r2 with
            | c :: _ => c.isDigit
            | [] => false)
         | none => false) ||
        (match dropSpaceColon r with
         | c :: _ => c.isDigit
         | [] => false))) s

/-- Consume exactly `n` characters satisfying `p`. -/
def eatCount (p : Char → Bool) : Nat → Str → Option Str
  | 0, s => some s
  | _ + 1, [] => none
  | n + 1, c :: t => if p c then eatCount p n t else none

/-- `\bPAN[\s:]*[A-Z]{5}\d{4}[A-Z]` (case-insensitive, so `[A-Z]` is any
ASCII letter). -/
def noisePan (s : Str) : Bool :=
  searchTop (fun prev t =>
    bStart prev &&
      tryO (wordCI "pan" t) (fun r =>
        match eatCount Char.isAlpha 5 (dropSpaceColon r) with
        | some r2 =>
          (match eatCount Char.isDigit 4 r2 with
           | some r3 =>
             (match r3 with
              | c :: _ => c.isAlpha
              | [] => false)
           | none => false)
        | none => false)) s

/-- `\bFSSAI` (case-insensitive). -/
def noiseFssai (s : Str) : Bool :=
  searchTop (fun prev t => bStart prev && (wordCI "fssai" t).isSome) s

/-- `\bCIN[\s:]*[A-Z0-9]` (case-insensitive). -/
def noiseCin (s : Str) : Bool :=
  searchTop (fun prev t =>
    bStart prev &&
      tryO (wordCI "cin" t) (fun r =>
        match dropSpaceColon r with
        | c :: _ => c.isAlphanum
        | [] => false)) s

/-- `\b(?:thank\s*you|have\s*a\s*nice)` (no trailing boundary). -/
def noiseThanks (s : Str) : Bool :=
  searchTop (fun prev t =>
    bStart prev &&
      ((chainCI ["thank", "you"] t).isSome || (chainCI ["have", "a", "nice"] t).isSome)) s

/-- `^\**\s*$`: only stars followed by whitespace. -/
def noiseStars (s : Str) : Bool :=
  dropSpaces (s.dropWhile (fun c => c == '*')) |>.isEmpty

/-- `^[-=*_#]{3,}$`: a separator line. -/
def noiseSeparator (s : Str) : Bool :=
  3 ≤ s.length && s.all (fun c => c == '-' || c == '=' || c == '*' || c == '_' || c == '#')

/-- `\bwww\.|\.\bcom\b|\.\borg\b` (case-insensitive). -/
def noiseUrl (s : Str) : Bool :=
  searchTop (fun prev t =>
    (bStart prev &&
      tryO (wordCI "www" t) (fun r =>
        match r with
        | '.' :: _ => true
        | _ => false)) ||
    (match t with
     | '.' :: t2 => tryO (wordCI "com" t2) bEnd || tryO (wordCI "org" t2) bEnd
     | _ => false)) s

/-- `\btax\s*(?:invoice|receipt)\b`. -/
def noiseTaxInvoice (s : Str) : Bool :=
  phraseSearch [["tax", "invoice"], ["tax", "receipt"]] s

/-- `#` followed by a word character (`#\b` inside an alternation). -/
def hashThenWord (s : Str) : Bool :=
  match s with
  | '#' :: t => bNextWord t
  | _ => false

/-- `\b(?:bill|invoice)\s*(?:no|#|number)\b`. -/
def noiseBillNo (s : Str) : Bool :=
  searchTop (fun prev t =>
    bStart prev &&
      (["bill", "invoice"].any fun w =>
        tryO (wordCI w t) (fun r =>
          let r2 := dropSpaces r
          tryO (wordCI "no" r2) bEnd || hashThenWord r2 || tryO (wordCI "number" r2) bEnd))) s

/-- `\boriginal\s*(?:for|copy)\b`. -/
def noiseOriginal (s : Str) : Bool :=
  phraseSearch [["original", "for"], ["original", "copy"]] s

/-- `\b(?:store|str)\s*(?:#|no|number)\s*\d`. -/
def noiseStoreNo (s : Str) : Bool :=
  searchTop (fun prev t =>
    bStart prev &&
      (["store", "str"].any fun w =>
        tryO (wordCI w t) (fun r =>
          let r2 := dropSpaces r
          let after : Option Str :=
            match r2 with
            | '#' :: t2 => some t2
            | _ =>
              match wordCI "no" r2 with
              | some t2 => some t2
              | none => wordCI "number" r2
          match after with
          | some t2 =>
            (match dropSpaces t2 with
             | c :: _ => c.isDigit
             | [] => false)
          | none => false))) s

/-- `\b(?:cashier|operator|register|terminal)\b`. -/
def noiseCashier (s : Str) : Bool :=
  phraseSearch [["cashier"], ["operator"], ["register"], ["terminal"]] s

/-- `\b(?:member|membership)\s*(?:#|no|id)\b`. -/
def noiseMemberNo (s : Str) : Bool :=
  searchTop (fun prev t =>
    bStart prev &&
      (["member", "membership"].any fun w =>
        tryO (wordCI w t) (fun r =>
          let r2 := dropSpaces r
          hashThenWord r2 || tryO (wordCI "no" r2) bEnd || tryO (wordCI "id" r2) bEnd))) s

/-- `\bref\s*(?:#|no)\b`. -/
def noiseRefNo (s : Str) : Bool :=
  searchTop (fun prev t =>
    bStart prev &&
      tryO (wordCI "ref" t) (fun r =>
        let r2 := dropSpaces r
        hashThenWord r2 || tryO (wordCI "no" r2) bEnd)) s

/-- `\b(?:visa|mastercard|amex|discover|debit|credit)\b`. -/
def noiseCards (s : Str) : Bool :=
  phraseSearch [["visa"], ["mastercard"], ["amex"], ["discover"], ["debit"], ["credit"]] s

/-- `\bchange\s*due\b`. -/
def noiseChangeDue (s : Str) : Bool := phraseSearch [["change", "due"]] s

/-- `\b(?:return|exchange)\s*policy\b`. -/
def noisePolicy (s : Str) : Bool :=
  phraseSearch [["return", "policy"], ["exchange", "policy"]] s

/-- `\bvalid\s*(?:thru|through|until)\b`. -/
def noiseValidThru (s : Str) : Bool :=
  phraseSearch [["valid", "thru"], ["valid", "through"], ["valid", "until"]] s

/-- `\bapproval\s*(?:code|#)\b`. -/
def noiseApproval (s : Str) : Bool :=
  searchTop (fun prev t =>
    bStart prev &&
      tryO (wordCI "approval" t) (fun r =>
        let r2 := dropSpaces r
        tryO (wordCI "code" r2) bEnd || hashThenWord r2)) s

/-- `\b(?:tc|transaction)\s*#?\s*\d`. -/
def noiseTransaction (s : Str) : Bool :=
  searchTop (fun prev t =>
    bStart prev &&
      (["tc", "transaction"].any fun w =>
        tryO (wordCI w t) (fun r =>
          let r2 := dropSpaces r
          let r3 :=
            match r2 with
            | '#' :: t2 => dropSpaces t2
            | _ => r2
          match r3 with
          | c :: _ => c.isDigit
          | [] => false))) s

/-- `^\s*\d{12,}\s*$`: a pure UPC/barcode line. -/
def noiseBarcodeLine (s : Str) : Bool :=
  let r := dropSpaces s
  let run := r.takeWhile Char.isDigit
  12 ≤ run.length && (dropSpaces (r.drop run.length)).isEmpty

/-- `NOISE_PATTERNS`, in source order. -/
def noisePatterns : List (Str → Bool) :=
  [noiseLongDigits, noiseGstin, noisePan, noiseFssai, noiseCin, noiseThanks,
   noiseStars, noiseSeparator, noiseUrl, noiseTaxInvoice, noiseBillNo,
   noiseOriginal, noiseStoreNo, noiseCashier, noiseMemberNo, noiseRefNo,
   noiseCards, noiseChangeDue, noisePolicy, noiseValidThru, noiseApproval,
   noiseTransaction, noiseBarcodeLine]

/-- `^\s*\d{7}\s*$` (Costco member-line noise). -/
def costcoSevenDigits (s : Str) : Bool :=
  let r := dropSpaces s
  let run := r.takeWhile Char.isDigit
  run.length == 7 && (dropSpaces (r.drop run.length)).isEmpty

/-- `\bmember\s*#?\s*\d`. -/
def costcoMember (s : Str) : Bool :=
  searchTop (fun prev t =>
    bStart prev &&
      tryO (wordCI "member" t) (fun r =>
        let r2 := dropSpaces r
        let r3 :=
          match r2 with
          | '#' :: t2 => dropSpaces t2
          | _ => r2
        match r3 with
        | c :: _ => c.isDigit
        | [] => false)) s

/-- `\b(?:whse|warehouse)\b`. -/
def costcoWhse (s : Str) : Bool := phraseSearch [["whse"], ["warehouse"]] s

/-- `COSTCO_NOISE`, in source order. -/
def costcoNoise : List (Str → Bool) :=
  [costcoSevenDigits, costcoMember, costcoWhse, kwInstantSavings]

/-- `\b(?:sc|snap)\s*(?:eligible|ebt)\b`. -/
def walmartSnap (s : Str) : Bool :=
  phraseSearch
    [["sc", "eligible"], ["sc", "ebt"], ["snap", "eligible"], ["snap", "ebt"]] s

/-- `WALMART_NOISE`, in source order. -/
def walmartNoise : List (Str → Bool) :=
  [phraseSearch [["save", "money"]], phraseSearch [["live", "better"]],
   phraseSearch [["manager"]], phraseSearch [["promo"]],
   phraseSearch [["price", "match"]], walmartSnap]

/-- `\bcircle\s*(?:offer|earnings?|savings?)\b`. -/
def targetCircle (s : Str) : Bool :=
  phraseSearch
    [["circle", "offer"], ["circle", "earnings"], ["circle", "earning"],
     ["circle", "savings"], ["circle", "saving"]] s

/-- `TARGET_NOISE`, in source order. -/
def targetNoise : List (Str → Bool) :=
  [phraseSearch [["expect", "more"]], phraseSearch [["pay", "less"]],
   phraseSearch [["redcard"]], targetCircle, phraseSearch [["dpci"]]]

/-- `_is_noise`: shared cross-template noise plus the detected template's
supplemental noise list. -/
def isNoise (line : Str) (store : String) : Bool :=
  noisePatterns.any (fun p => p line) ||
    (if store == "costco" then costcoNoise.any (fun p => p line)
     else if store == "walmart" then walmartNoise.any (fun p => p line)
     else if store == "target" then targetNoise.any (fun p => p line)
     else false)

/-!  ## Store detection patterns -/

/-- `\bwal[\s\-]*mart\b`. -/
def patWalMart (s : Str) : Bool :=
  searchTop (fun prev t =>
    bStart prev &&
      tryO (wordCI "wal" t) (fun r =>
        tryO (wordCI "mart" (r.dropWhile (fun c => isSpaceC c || c == '-'))) bEnd)) s

/-- `\bsam['’]?s\s*club\b`. -/
def patSamsClub (s : Str) : Bool :=
  searchTop (fun prev t =>
    bStart prev &&
      tryO (wordCI "sam" t) (fun r =>
        tryO (wordCI "s" (eatApos r)) (fun r2 =>
          tryO (wordCI "club" (dropSpaces r2)) bEnd))) s

/-- Tail `['’]?s?\b` after a word (e.g. `joe['’]?s?\b`). -/
def aposSTail (r : Str) : Bool :=
  (let r2 := eatApos r
   if r2.length < r.length then tryO (wordCI "s" r2) bEnd || bNextWord r2 else false) ||
  tryO (wordCI "s" r) bEnd || bEnd r

/-- `\btrader\s*joe['’]?s?\b`. -/
def patTraderJoes (s : Str) : Bool :=
  searchTop (fun prev t =>
    bStart prev &&
      tryO (wordCI "trader" t) (fun r =>
        tryO (wordCI "joe" (dropSpaces r)) aposSTail)) s

/-- `['’]?s\b` (mandatory `s`) after a word, e.g. `ralph['’]?s\b`. -/
def aposMandS (r : Str) : Bool :=
  tryO (wordCI "s" (eatApos r)) bEnd

/-- `\bralph['’]?s\b`. -/
def patRalphs (s : Str) : Bool :=
  searchTop (fun prev t => bStart prev && tryO (wordCI "ralph" t) aposMandS) s

/-- `\bfry['’]?s\b`. -/
def patFrys (s : Str) : Bool :=
  searchTop (fun prev t => bStart prev && tryO (wordCI "fry" t) aposMandS) s

/-- Optional single `[\s\-]`. -/
def optSpaceDash (s : Str) : Str :=
  match s with
  | c :: t => if isSpaceC c || c == '-' then t else s
  | [] => s

/-- `\bh[\s\-]?e[\s\-]?b\b`. -/
def patHeb (s : Str) : Bool :=
  searchTop (fun prev t =>
    bStart prev &&
      tryO (wordCI "h" t) (fun r =>
        tryO (wordCI "e" (optSpaceDash r)) (fun r2 =>
          tryO (wordCI "b" (optSpaceDash r2)) bEnd))) s

/-- `\bMRP\b` (case-sensitive). -/
def patMRP (s : Str) : Bool := wordSearchCS "MRP" s

/-- The `indian_grocery` detection patterns, in source order. -/
def indianPatterns : List (Str → Bool) :=
  [phraseSearch [["patel", "brothers"], ["patel", "brother"]],
   phraseSearch [["india", "bazaar"], ["india", "bazar"], ["india", "market"]],
   phraseSearch [["apna", "bazaar"], ["apna", "bazar"], ["apna", "market"]],
   phraseSearch [["subzi", "mandi"]],
   phraseSearch [["desi", "bazaar"], ["desi", "bazar"], ["desi", "market"], ["desi", "store"]],
   phraseSearch [["raj", "store"], ["raj", "market"], ["raj", "grocery"]],
   phraseSearch [["spice", "bazaar"], ["spice", "house"], ["spice", "world"], ["spice", "land"]],
   phraseSearch [["global", "foods"], ["global", "food"], ["global", "market"], ["global", "grocery"]],
   phraseSearch [["cherians"], ["cherian"]],
   phraseSearch [["deepam"]],
   phraseSearch [["shaan"]],
   phraseSearch [["swad"]],
   phraseSearch [["namaste"]],
   phraseSearch
     [["sri", "krishna"], ["sri", "lakshmi"], ["sri", "ganesh"],
      ["shri", "krishna"], ["shri", "lakshmi"], ["shri", "ganesh"]],
   patMRP,
   phraseSearch
     [["masala"], ["atta"], ["ghee"], ["paneer"], ["daal"], ["dal"], ["roti"], ["naan"]]]

/-- `STORE_PATTERNS`, in dict insertion order. -/
def storePatterns : List (String × List (Str → Bool)) :=
  [("costco", [phraseSearch [["costco"]], phraseSearch [["costco", "wholesale"]]]),
   ("walmart", [patWalMart, phraseSearch [["walmart"]], patSamsClub]),
   ("target", [phraseSearch [["target"]], phraseSearch [["super", "target"]]]),
   ("indian_grocery", indianPatterns),
   ("kroger", [phraseSearch [["kroger"]], patRalphs, patFrys]),
   ("aldi", [phraseSearch [["aldi"]]]),
   ("trader_joes", [patTraderJoes]),
   ("whole_foods", [phraseSearch [["whole", "foods"], ["whole", "food"]]]),
   ("heb", [patHeb])]

/-- Join lines with a newline separator (Python `"\n".join`). -/
def joinNL : List Str → Str
  | [] => []
  | [l] => l
  | l :: l2 :: ls => l ++ '\n' :: joinNL (l2 :: ls)

/-- First table entry one of whose patterns matches the header. -/
def storeFind (tbl : List (String × List (Str → Bool))) (header : Str) : Option String :=
  match tbl with
  | [] => none
  | (nm, pats) :: rest =>
    if pats.any (fun p => p header) then some nm else storeFind rest header

/-- `_detect_store`: header scan over the ordered table, then the
`indian_grocery` fallback over the full raw text, else `"generic"`. -/
def detectStore (lines : List Str) (rawText : Str) : String :=
  match storeFind storePatterns (joinNL (lines.take 10)) with
  | some nm => nm
  | none =>
    if indianPatterns.any (fun p => p rawText) then "indian_grocery" else "generic"

/-!  ## Item-count patterns -/

/-- `\d{1,4}` with a trailing `\b`: the whole digit run, of length 1–4. -/
def eatDigits14B (s : Str) : Option Nat :=
  let run := s.takeWhile Char.isDigit
  if 1 ≤ run.length && run.length ≤ 4 && bEnd (s.drop run.length) then
    some (natDigits run)
  else none

/-- Ordered alternation returning the first successful value. -/
def firstSomeL (fs : List (Str → Option α)) (s : Str) : Option α :=
  match fs with
  | [] => none
  | f :: rest =>
    match f s with
    | some a => some a
    | none => firstSomeL rest s

/-- The unit alternation of `ITEM_COUNT_RE`:
`items?|qty|quantities?|no\.?\s*of\s*items?`, in source order. -/
def itemCountUnit (s : Str) : Option Str :=
  firstSomeL
    [wordCI "items", wordCI "item", wordCI "qty", wordCI "quantities", wordCI "quantitie",
     fun t =>
       match wordCI "no" t with
       | some r =>
         let r1 := match r with
           | '.' :: t2 => t2
           | _ => r
         match wordCI "of" (dropSpaces r1) with
         | some r2 =>
           match wordCI "items" (dropSpaces r2) with
           | some r3 => some r3
           | none => wordCI "item" (dropSpaces r2)
         | none => none
       | none => none] s

/-- Tail of `ITEM_COUNT_RE` after the unit word:
`\s*[:\-]?\s*(\d{1,4})\b`. -/
def itemCountTail (r : Str) : Option Nat :=
  let r2 := dropSpaces r
  let r3 :=
    match r2 with
    | c :: t => if c == ':' || c == '-' then t else r2
    | [] => r2
  eatDigits14B (dropSpaces r3)

/-- `ITEM_COUNT_RE` at one position, returning the captured count. -/
def itemCountAt (prev : Option Char) (s : Str) : Option Nat :=
  if bStart prev then
    (match wordCI "total" s with
     | some r =>
       (match itemCountUnit (dropSpaces r) with
        | some r2 => itemCountTail r2
        | none => none)
     | none => none).orElse (fun _ =>
       match itemCountUnit s with
       | some r2 => itemCountTail r2
       | none => none)
  else none

/-- `ITEM_COUNT_RE.search`, returning the captured count. -/
def itemCountSearch (s : Str) : Option Nat := searchTopO itemCountAt s

/-- `COSTCO_ITEM_COUNT_RE = \b(\d{1,3})\s*items?\s*sold\b` at one position. -/
def costcoItemCountAt (prev : Option Char) (s : Str) : Option Nat :=
  if bStart prev then
    let run := s.takeWhile Char.isDigit
    if 1 ≤ run.length && run.length ≤ 3 then
      let r := dropSpaces (s.drop run.length)
      let afterUnit : Option Str :=
        match wordCI "items" r with
        | some r2 => some r2
        | none => wordCI "item" r
      match afterUnit with
      | some r2 =>
        match wordCI "sold" (dropSpaces r2) with
        | some r3 => if bEnd r3 then some (natDigits run) else none
        | none => none
      | none => none
    else none
  else none

/-- `COSTCO_ITEM_COUNT_RE.search`. -/
def costcoItemCountSearch (s : Str) : Option Nat := searchTopO costcoItemCountAt s

/-!  ## Date patterns -/

/-- A date separator `[/\-.]`. -/
def sepC (c : Char) : Bool := c == '/' || c == '-' || c == '.'

/-- `\d{1,2}` followed by a separator; candidate consumptions (count of
digits plus the separator, remainder) in the greedy backtracking order
(two digits first). -/
def d12sep (s : Str) : List (Nat × Str) :=
  let run := (s.takeWhile Char.isDigit).length
  let tryK : Nat → Option (Nat × Str) := fun k =>
    if k ≤ run then
      match s.drop k with
      | c :: t => if sepC c then some (k + 1, t) else none
      | [] => none
    else none
  (match tryK 2 with
   | some x => [x]
   | none => []) ++
  (match tryK 1 with
   | some x => [x]
   | none => [])

/-- Final `\d{2,4}` of the first `DATE_RE` branch (no trailing boundary):
consume `min(run, 4)` digits provided the run has length ≥ 2. -/
def d24NoB (s : Str) : Option Nat :=
  let run := (s.takeWhile Char.isDigit).length
  if 2 ≤ run then some (min run 4) else none

/-- Final `\d{2,4}\b`: the whole digit run, of length 2–4, at a word
boundary. -/
def d24B (s : Str) : Option Nat :=
  let run := (s.takeWhile Char.isDigit).length
  if 2 ≤ run && run ≤ 4 && bEnd (s.drop run) then some run else none

/-- Final `\d{1,2}\b` of the second `DATE_RE` branch. -/
def d12B (s : Str) : Option Nat :=
  let run := (s.takeWhile Char.isDigit).length
  if 2 ≤ run && bEnd (s.drop 2) then some 2
  else if 1 ≤ run && bEnd (s.drop 1) then some 1
  else none

/-- First branch of `DATE_RE`: `\b(\d{1,2}[/\-.]\d{1,2}[/\-.]\d{2,4})`
at one position, returning the match length. -/
def dateB1At (prev : Option Char) (s : Str) : Option Nat :=
  if bStart prev then
    (d12sep s).findSome? (fun x =>
      (d12sep x.2).findSome? (fun y =>
        (d24NoB y.2).map (fun m => x.1 + y.1 + m)))
  else none

/-- Second branch of `DATE_RE` (and of `DATE_RE_VERBOSE`):
`\b(\d{4}[/\-.]\d{1,2}[/\-.]\d{1,2})\b` at one position. -/
def dateB2At (prev : Option Char) (s : Str) : Option Nat :=
  if bStart prev then
    match eatCount Char.isDigit 4 s with
    | some r =>
      (match r with
       | c :: t =>
         if sepC c then
           (d12sep t).findSome? (fun y =>
             (d12B y.2).map (fun m => 4 + 1 + y.1 + m))
         else none
       | [] => none)
    | none => none
  else none

/-- `DATE_RE` at one position (ordered alternation of the two branches). -/
def dateReAt (prev : Option Char) (s : Str) : Option Nat :=
  match dateB1At prev s with
  | some n => some n
  | none => dateB2At prev s

/-- `DATE_RE.search`. -/
def dateReSearch (s : Str) : Bool :=
  searchTop (fun prev t => (dateReAt prev t).isSome) s

/-- `DATE_RE.sub("", s)`. -/
def dateReSub (s : Str) : Str :=
  subAll (fun prev t => (dateReAt prev t).map (fun n => t.drop n)) s

/-- Month-abbreviation alternation `(?:Jan|Feb|...|Dec)` of
`DATE_RE_VERBOSE`, in source order. -/
def monthEat (s : Str) : Option Str :=
  firstSomeL
    [wordCI "jan", wordCI "feb", wordCI "mar", wordCI "apr", wordCI "may",
     wordCI "jun", wordCI "jul", wordCI "aug", wordCI "sep", wordCI "oct",
     wordCI "nov", wordCI "dec"] s

/-- `\s+` (at least one whitespace, greedy): require a leading space. -/
def eatSpaces1 (s : Str) : Option Str :=
  match s with
  | c :: t => if isSpaceC c then some (dropSpaces t) else none
  | [] => none

/-- Tail `,?\s+\d{2,4}\b` after the day digits of the verbose month form. -/
def monthDayTail (s : Str) : Option Nat :=
  let s1 := match s with
    | ',' :: t => t
    | _ => s
  let commaLen := s.length - s1.length
  match eatSpaces1 s1 with
  | some r =>
    let spLen := s1.length - r.length
    (d24B r).map (fun m => commaLen + spLen + m)
  | none => none

/-- Third branch of `DATE_RE_VERBOSE`:
`\b((?:Jan|...)\w*\s+\d{1,2},?\s+\d{2,4})\b` at one position. -/
def dateV3At (prev : Option Char) (s : Str) : Option Nat :=
  if bStart prev then
    match monthEat s with
    | some r =>
      let r2 := r.dropWhile isWordC
      (match eatSpaces1 r2 with
       | some r3 =>
         let run := (r3.takeWhile Char.isDigit).length
         let tryK : Nat → Option Nat := fun k =>
           if 1 ≤ k && k ≤ run then
             (monthDayTail (r3.drop k)).map (fun m => (s.length - r3.length) + k + m)
           else none
         (match tryK 2 with
          | some n => some n
          | none => tryK 1)
       | none => none)
    | none => none
  else none

/-- Fourth branch of `DATE_RE_VERBOSE`:
`\b(\d{1,2}\s+(?:Jan|...)\w*\s+\d{2,4})\b` at one position. -/
def dateV4At (prev : Option Char) (s : Str) : Option Nat :=
  if bStart prev then
    let run := (s.takeWhile Char.isDigit).length
    let tryK : Nat → Option Nat := fun k =>
      if 1 ≤ k && k ≤ run then
        match eatSpaces1 (s.drop k) with
        | some r =>
          (match monthEat r with
           | some r2 =>
             let r3 := r2.dropWhile isWordC
             (match eatSpaces1 r3 with
              | some r4 => (d24B r4).map (fun m => (s.length - r4.length) + m)
              | none => none)
           | none => none)
        | none => none
      else none
    (match tryK 2 with
     | some n => some n
     | none => tryK 1)
  else none

/-- First branch of `DATE_RE_VERBOSE` (same as `DATE_RE`'s first branch but
with a closing `\b`). -/
def dateV1At (prev : Option Char) (s : Str) : Option Nat :=
  if bStart prev then
    (d12sep s).findSome? (fun x =>
      (d12sep x.2).findSome? (fun y =>
        (d24B y.2).map (fun m => x.1 + y.1 + m)))
  else none

/-- `DATE_RE_VERBOSE` at one position, returning the matched text (the
content of whichever group matched). -/
def dateVerboseAt (prev : Option Char) (s : Str) : Option Str :=
  (firstSomeL
    [fun t => dateV1At prev t, fun t => dateB2At prev t,
     fun t => dateV3At prev t, fun t => dateV4At prev t] s).map s.take

/-- `DATE_RE_VERBOSE.search`, returning the first non-null group of the
leftmost match. -/
def dateVerboseSearch (s : Str) : Option Str := searchTopO dateVerboseAt s

/-- `DATE_KEYWORD_RE = \b(?:date|dt|dated)\b`. -/
def dateKeywordRe (s : Str) : Bool :=
  phraseSearch [["date"], ["dt"], ["dated"]] s

/-- The fifty US state abbreviations of `ADDRESS_RE`, in source order. -/
def stateCodes : List String :=
  ["al", "ak", "az", "ar", "ca", "co", "ct", "de", "fl", "ga", "hi", "id",
   "il", "in", "ia", "ks", "ky", "la", "me", "md", "ma", "mi", "mn", "ms",
   "mo", "mt", "ne", "nv", "nh", "nj", "nm", "ny", "nc", "nd", "oh", "ok",
   "or", "pa", "ri", "sc", "sd", "tn", "tx", "ut", "vt", "va", "wa", "wv",
   "wi", "wy"]

/-- `ADDRESS_RE = \b(?:AL|...|WY)\s*\d{5}\b`. -/
def addressRe (s : Str) : Bool :=
  searchTop (fun prev t =>
    bStart prev &&
      (stateCodes.any fun code =>
        tryO (wordCI code t) (fun r =>
          let r2 := dropSpaces r
          let run := (r2.takeWhile Char.isDigit).length
          run == 5 && bEnd (r2.drop 5)))) s

/-!  ## Quantity, weight and legacy price patterns -/

/-- `QTY_PRICE_RE = (\d+)\s*[xX×@]\s*(?:Rs\.?|₹|\$|£|€)?\s*(\d{1,6}(?:\.\d{1,2})?)`
(compiled without flags, hence case-sensitive) at one position; returns the
quantity capture and the remainder after the match. -/
def qtyPriceAt (s : Str) : Option (Nat × Str) :=
  let run := s.takeWhile Char.isDigit
  if run.isEmpty then none
  else
    match dropSpaces (s.drop run.length) with
    | c :: t =>
      if c == 'x' || c == 'X' || c == '×' || c == '@' then
        let r := dropSpaces t
        let r2 := match eatCurSymT false r with
          | some (_, rr) => rr
          | none => r
        match eatNum (dropSpaces r2) with
        | some (_, rest) => some (natDigits run, rest)
        | none => none
      else none
    | [] => none

/-- `QTY_PRICE_RE.search`, returning the quantity capture of the leftmost
match. -/
def qtyPriceSearch (s : Str) : Option Nat :=
  searchTopO (fun _ t => (qtyPriceAt t).map Prod.fst) s

/-- `QTY_PRICE_RE.sub("", s)`. -/
def qtyPriceSub (s : Str) : Str :=
  subAll (fun _ t => (qtyPriceAt t).map Prod.snd) s

/-- `\d+\.?\d*` (greedy), returning the remainder. -/
def eatNumLoose (s : Str) : Option Str :=
  let run := s.takeWhile Char.isDigit
  if run.isEmpty then none
  else
    match s.drop run.length with
    | '.' :: t => some (t.dropWhile Char.isDigit)
    | r => some r

/-- `WEIGHT_ITEM_RE = (\d+\.?\d*)\s*(?:lb|kg|oz|lbs)\s*[@]\s*(?:Rs\.?|₹|\$|£|€)?\s*(\d+\.?\d*)`
(case-insensitive) at one position, returning the remainder. -/
def weightItemAt (s : Str) : Option Str :=
  match eatNumLoose s with
  | some r =>
    (["lb", "kg", "oz", "lbs"].findSome? fun u =>
      match wordCI u (dropSpaces r) with
      | some r2 =>
        (match dropSpaces r2 with
         | '@' :: t =>
           let r3 := dropSpaces t
           let r4 := match eatCurSymT true r3 with
             | some (_, rr) => rr
             | none => r3
           eatNumLoose (dropSpaces r4)
         | _ => none)
      | none => none)
  | none => none

/-- `WEIGHT_ITEM_RE.sub("", s)`. -/
def weightItemSub (s : Str) : Str :=
  subAll (fun _ t => weightItemAt t) s

/-- Tail `(?:\s*[A-Z])?$` (case-insensitive `[A-Z]`, so any ASCII letter)
after an optional currency token. -/
def endOneLetter (r : Str) : Bool :=
  match dropSpaces r with
  | [c] => c.isAlpha
  | _ => false

/-- Tail `\s*(?:Rs\.?|₹|\$|£|€)?(?:\s*[A-Z])?$` of the second `PRICE_RE`
branch. -/
def priceReBTail (t : Str) : Bool :=
  let t1 := dropSpaces t
  (match eatCurSymT true t1 with
   | some (_, r) => r.isEmpty || endOneLetter r
   | none => false) ||
  t1.isEmpty ||
  (match t1 with
   | [c] => c.isAlpha
   | _ => false)

/-- `PRICE_RE` at one position: currency-anchored branch first, then the
end-anchored two-decimal branch; returns the remainder after the match. -/
def priceReAt (s : Str) : Option Str :=
  match curPriceAt s with
  | some (_, rest) => some rest
  | none =>
    let run := s.takeWhile Char.isDigit
    if run.length < 1 || 6 < run.length then none
    else
      match s.drop run.length with
      | '.' :: a :: b :: r3 =>
        if a.isDigit && b.isDigit && priceReBTail r3 then some [] else none
      | _ => none

/-- `PRICE_RE.sub("", s)`. -/
def priceReSub (s : Str) : Str :=
  subAll (fun _ t => priceReAt t) s

/-- `CURRENCY_RE.sub("", s)`. -/
def currencyReSub (s : Str) : Str :=
  subAll (fun _ t => (eatCurSymT true t).map Prod.snd) s

/-!  ## Name cleanup -/

/-- `COSTCO_ITEM_CODE_RE.sub = ^\s*(\d{5,7})\s+` removed once at the
start: leading spaces, a digit run of length 5–7, at least one space. -/
def costcoItemCodeSub (s : Str) : Str :=
  let t := dropSpaces s
  let run := (t.takeWhile Char.isDigit).length
  if 5 ≤ run && run ≤ 7 then
    match t.drop run with
    | c :: rest => if isSpaceC c then rest.dropWhile isSpaceC else s
    | [] => s
  else s

/-- `\d{10,13}` (or another exact window) followed by `\s+`: succeeds when
the whole digit run has length within the window and a space follows;
returns the remainder after the trailing whitespace. -/
def digitsWindowSpace (lo hi : Nat) (s : Str) : Option Str :=
  let run := (s.takeWhile Char.isDigit).length
  if lo ≤ run && run ≤ hi then
    match s.drop run with
    | c :: rest => if isSpaceC c then some (rest.dropWhile isSpaceC) else none
    | [] => none
  else none

/-- `WALMART_ITEM_CODE_RE.sub`: `^\s*(?:\d[\s\-]?)?\d{10,13}\s+` or
`^\s*\d{9,13}\s+`, removed once at the start, branches in source order. -/
def walmartItemCodeSub (s : Str) : Str :=
  let t := dropSpaces s
  let branch1 : Option Str :=
    match t with
    | c :: rest =>
      if c.isDigit then
        (match rest with
         | c2 :: rest2 =>
           if isSpaceC c2 || c2 == '-' then
             (match digitsWindowSpace 10 13 rest2 with
              | some r => some r
              | none => digitsWindowSpace 10 13 rest)
           else digitsWindowSpace 10 13 rest
         | [] => none)
      else none
    | [] => none
  match branch1 with
  | some r => r
  | none =>
    match digitsWindowSpace 9 13 t with
    | some r => r
    | none => s

/-- `TARGET_DPCI_RE = \d{3}[\-\s]\d{2}[\-\s]\d{4}` at one position,
returning the remainder. -/
def targetDpciAt (s : Str) : Option Str :=
  match eatCount Char.isDigit 3 s with
  | some (c :: r) =>
    if c == '-' || isSpaceC c then
      match eatCount Char.isDigit 2 r with
      | some (c2 :: r2) =>
        if c2 == '-' || isSpaceC c2 then eatCount Char.isDigit 4 r2 else none
      | _ => none
    else none
  | _ => none

/-- `TARGET_DPCI_RE.sub("", s)`. -/
def targetDpciSub (s : Str) : Str := subAll (fun _ t => targetDpciAt t) s

/-- The tax-suffix letters `[EATFNOX]` (case-insensitive). -/
def taxSuffixLetter (c : Char) : Bool :=
  let l := c.toLower
  l == 'e' || l == 'a' || l == 't' || l == 'f' || l == 'n' || l == 'o' || l == 'x'

/-- `re.sub(r"\s+[EATFNOX]\s*$", "", name, flags=re.I)`: at one position,
at least one space, a suffix letter, then only whitespace to the end. -/
def taxSuffixAt (s : Str) : Option Str :=
  match s with
  | c :: _ =>
    if isSpaceC c then
      match dropSpaces s with
      | c2 :: t2 =>
        if taxSuffixLetter c2 && (dropSpaces t2).isEmpty then some [] else none
      | [] => none
    else none
  | [] => none

/-- The tax-suffix stripping substitution. -/
def taxSuffixSub (s : Str) : Str := subAll (fun _ t => taxSuffixAt t) s

/-- `re.sub(r"\b\d{4,}\b", "", name)`: digit runs of length ≥ 4 bounded by
word boundaries. -/
def digitRun4Sub (s : Str) : Str :=
  subAll (fun prev t =>
    if bStart prev then
      let run := (t.takeWhile Char.isDigit).length
      if 4 ≤ run && bEnd (t.drop run) then some (t.drop run) else none
    else none) s

/-- `re.sub(r"\s+", " ", s)`: collapse whitespace runs to single spaces
(the flag records whether the previous character was whitespace). -/
def collapseWSAux : Bool → Str → Str
  | _, [] => []
  | prevSp, c :: t =>
    if isSpaceC c then
      (if prevSp then collapseWSAux true t else ' ' :: collapseWSAux true t)
    else c :: collapseWSAux false t

/-- `re.sub(r"\s+", " ", s)`. -/
def collapseWS (s : Str) : Str := collapseWSAux false s

/-- The punctuation set of `.strip(" -:,./\\|")`. -/
def stripPunct (c : Char) : Bool :=
  c == ' ' || c == '-' || c == ':' || c == ',' || c == '.' || c == '/' || c == '\\' || c == '|'

/-- Python `str.strip(chars)`. -/
def stripBy (p : Char → Bool) (s : Str) : Str :=
  ((s.dropWhile p).reverse.dropWhile p).reverse

/-- Python `str.strip()` (whitespace). -/
def stripWS (s : Str) : Str := stripBy isSpaceC s

/-- Python `str.lower()` (ASCII fragment). -/
def pyLower (s : Str) : Str := s.map Char.toLower

/-- Python `str.upper()` (ASCII fragment). -/
def pyUpper (s : Str) : Str := s.map Char.toUpper

/-- Python `str.title()` (ASCII fragment): a letter after a non-letter is
uppercased, a letter after a letter is lowercased. -/
def pyTitleAux (prevAlpha : Bool) : Str → Str
  | [] => []
  | c :: t =>
    if c.isAlpha then
      (if prevAlpha then c.toLower else c.toUpper) :: pyTitleAux true t
    else c :: pyTitleAux false t

/-- Python `str.title()`. -/
def pyTitle (s : Str) : Str := pyTitleAux false s

/-- `_clean_item_name`: template item-code stripping, tax-suffix removal,
price/currency/quantity/weight pattern removal, long digit runs, then
whitespace collapse and punctuation trim. -/
def cleanItemName (name : Str) (store : String) : Str :=
  let n1 := if store == "costco" then costcoItemCodeSub name else name
  let n2 := if store == "walmart" then walmartItemCodeSub n1 else n1
  let n3 := if store == "target" then targetDpciSub n2 else n2
  let n4 := taxSuffixSub n3
  let n5 := priceReSub n4
  let n6 := currencyReSub n5
  let n7 := qtyPriceSub n6
  let n8 := weightItemSub n7
  let n9 := digitRun4Sub n8
  stripBy stripPunct (collapseWS n9)

/-- `_is_non_item_line`: noise, or any total/subtotal/tax/savings keyword. -/
def isNonItemLine (line : Str) (store : String) : Bool :=
  isNoise line store || anyTotalKw line || anySubtotalKw line ||
    anyTaxKw line || anySavingsKw line

/-- `_has_item_name`: at least three alphabetic characters after stripping
price, quantity, currency and weight sub-patterns. -/
def hasItemName (text : Str) : Bool :=
  let c1 := priceReSub text
  let c2 := qtyPriceSub c1
  let c3 := currencyReSub c2
  let c4 := weightItemSub c3
  3 ≤ (c4.filter Char.isAlpha).length

/-!  ## Field extractors -/

/-- Normalise a matched currency token: `Rs`-family becomes the rupee
sign. -/
def normSym (t : Str) : Str :=
  if rsFamily t then "₹".toList else t

/-- The lookahead of `_extract_total`: scan up to three following lines,
stopping at any total/subtotal/tax/savings keyword, and return the first
line's price found (whatever its size). -/
def totalLookahead : List Str → Option ℚ
  | [] => none
  | l :: t =>
    if anyTotalKw l || anySubtotalKw l || anyTaxKw l || anySavingsKw l then none
    else
      match findBestPrice l with
      | some a => some a
      | none => totalLookahead t

/-- The currency lookup of `_extract_total`: `CURRENCY_RE` on the keyword
line, else on up to three following lines. -/
def totalCurrencyLookup (l : Str) (next3 : List Str) : Option Str :=
  match curSearchFirst l with
  | some t => some (normSym t)
  | none =>
    (next3.findSome? (fun nl => curSearchFirst nl)).map normSym

/-- Inner line scan of `_extract_total` for one keyword pattern. -/
def totalTryLines (kw : Str → Bool) : List Str → Option (ℚ × Option Str)
  | [] => none
  | l :: rest =>
    if kw l then
      if anySubtotalKw l then totalTryLines kw rest
      else if totalItemCountRe l then totalTryLines kw rest
      else if anyTaxKw l then totalTryLines kw rest
      else
        let amount :=
          match findBestPrice l with
          | some a => some a
          | none => totalLookahead (rest.take 3)
        match amount with
        | some a =>
          if mkRat 1 100 ≤ a then some (a, totalCurrencyLookup l (rest.take 3))
          else totalTryLines kw rest
        | none => totalTryLines kw rest
    else totalTryLines kw rest

/-- Bottom-up fallback of `_extract_total`: last non-noise, non-savings,
non-item-count line with a price ≥ 1. -/
def totalFallback : List Str → Option (ℚ × Option Str)
  | [] => none
  | l :: rest =>
    if isNoise l "generic" then totalFallback rest
    else if anySavingsKw l then totalFallback rest
    else if totalItemCountRe l then totalFallback rest
    else
      match findBestPrice l with
      | some a =>
        if 1 ≤ a then some (a, (curSearchFirst l).map normSym)
        else totalFallback rest
      | none => totalFallback rest

/-- `_extract_total`: keyword patterns in priority order, then the
bottom-up fallback; returns the amount and the currency symbol found. -/
def extractTotal (lines : List Str) : Option ℚ × Option Str :=
  match totalKeywords.findSome? (fun kw => totalTryLines kw lines) with
  | some r => (some r.1, r.2)
  | none =>
    match totalFallback lines.reverse with
    | some r => (some r.1, r.2)
    | none => (none, none)

/-- Lookahead of `_extract_subtotal`: stop at total/subtotal/tax keywords
(savings lines do not stop the scan); accept amounts ≥ 0.01. -/
def subtotalLookahead : List Str → Option ℚ
  | [] => none
  | l :: t =>
    if anyTotalKw l || anySubtotalKw l || anyTaxKw l then none
    else
      match findBestPrice l with
      | some a => if mkRat 1 100 ≤ a then some a else subtotalLookahead t
      | none => subtotalLookahead t

/-- Inner line scan of `_extract_subtotal` for one keyword pattern. -/
def subtotalTryLines (kw : Str → Bool) : List Str → Option ℚ
  | [] => none
  | l :: rest =>
    if kw l then
      match
        (match findBestPrice l with
         | some a => if mkRat 1 100 ≤ a then some a else none
         | none => none) with
      | some a => some a
      | none =>
        match subtotalLookahead (rest.take 3) with
        | some a => some a
        | none => subtotalTryLines kw rest
    else subtotalTryLines kw rest

/-- `_extract_subtotal`. -/
def extractSubtotal (lines : List Str) : Option ℚ :=
  subtotalKeywords.findSome? (fun kw => subtotalTryLines kw lines)

/-- Lookahead of `_extract_tax`: stop at total/subtotal/tax keywords;
accept amounts in `[0.01, 500)`. -/
def taxLookahead : List Str → Option ℚ
  | [] => none
  | l :: t =>
    if anyTotalKw l || anySubtotalKw l || anyTaxKw l then none
    else
      match findBestPrice l with
      | some a => if mkRat 1 100 ≤ a && a < 500 then some a else taxLookahead t
      | none => taxLookahead t

/-- Inner line scan of `_extract_tax` for one keyword pattern. -/
def taxTryLines (kw : Str → Bool) : List Str → Option ℚ
  | [] => none
  | l :: rest =>
    if kw l then
      match
        (match findBestPrice l with
         | some a => if mkRat 1 100 ≤ a && a < 500 then some a else none
         | none => none) with
      | some a => some a
      | none =>
        match taxLookahead (rest.take 3) with
        | some a => some a
        | none => taxTryLines kw rest
    else taxTryLines kw rest

/-- `_extract_tax`. -/
def extractTax (lines : List Str) : Option ℚ :=
  taxKeywords.findSome? (fun kw => taxTryLines kw lines)

/-- Lookahead of `_extract_savings`: stop at any of the four keyword
categories; accept amounts ≥ 0.01. -/
def savingsLookahead : List Str → Option ℚ
  | [] => none
  | l :: t =>
    if anyTotalKw l || anySubtotalKw l || anyTaxKw l || anySavingsKw l then none
    else
      match findBestPrice l with
      | some a => if mkRat 1 100 ≤ a then some a else savingsLookahead t
      | none => savingsLookahead t

/-- Inner line scan of `_extract_savings` for one keyword pattern. -/
def savingsTryLines (kw : Str → Bool) : List Str → Option ℚ
  | [] => none
  | l :: rest =>
    if kw l then
      match
        (match findBestPrice l with
         | some a => if mkRat 1 100 ≤ a then some a else none
         | none => none) with
      | some a => some a
      | none =>
        match savingsLookahead (rest.take 3) with
        | some a => some a
        | none => savingsTryLines kw rest
    else savingsTryLines kw rest

/-- `_extract_savings`. -/
def extractSavings (lines : List Str) : Option ℚ :=
  savingsKeywords.findSome? (fun kw => savingsTryLines kw lines)

/-- `_extract_currency`: first currency token anywhere in the raw text,
normalised (`Rs`-family becomes the rupee sign); dollar sign by default. -/
def extractCurrency (rawText : Str) : Str :=
  match curSearchFirst rawText with
  | some t => normSym t
  | none => "$".toList

/-- The canonical-name table of `_extract_merchant`. -/
def canonicalMerchant (store : String) : Option Str :=
  if store == "costco" then some "Costco Wholesale".toList
  else if store == "walmart" then some "Walmart".toList
  else if store == "target" then some "Target".toList
  else if store == "kroger" then some "Kroger".toList
  else if store == "aldi" then some "ALDI".toList
  else if store == "trader_joes" then some ("Trader Joe" ++ String.singleton aposC ++ "s").toList
  else if store == "whole_foods" then some "Whole Foods Market".toList
  else if store == "heb" then some "H-E-B".toList
  else none

/-- Merchant scan over the first five lines. -/
def merchantScan (store : String) : List Str → Option Str
  | [] => none
  | l :: rest =>
    if isNoise l store then merchantScan store rest
    else if dateReSearch l then merchantScan store rest
    else
      let text := stripWS l
      if text.length < 3 then merchantScan store rest
      else
        let alpha := (text.filter Char.isAlpha).length
        if (alpha : ℚ) < (text.length : ℚ) * (3 / 10) then merchantScan store rest
        else some text

/-- `_extract_merchant`. -/
def extractMerchant (lines : List Str) (store : String) : Option Str :=
  match canonicalMerchant store with
  | some nm => some nm
  | none => merchantScan store (lines.take 5)

/-- Pass 1 of `_extract_date`: lines with an explicit date keyword. -/
def datePass1 : List Str → Option Str
  | [] => none
  | l :: rest =>
    if dateKeywordRe l then
      match dateVerboseSearch l with
      | some g => some (stripWS g)
      | none => datePass1 rest
    else datePass1 rest

/-- Pass 2 of `_extract_date`: any line with a date pattern, skipping
address-like lines. -/
def datePass2 : List Str → Option Str
  | [] => none
  | l :: rest =>
    if addressRe l then datePass2 rest
    else
      match dateVerboseSearch l with
      | some g => some (stripWS g)
      | none => datePass2 rest

/-- `_extract_date`. -/
def extractDate (lines : List Str) : Option Str :=
  match datePass1 lines with
  | some d => some d
  | none => datePass2 lines

/-- `_extract_item_count_from_text`. -/
def extractItemCount (lines : List Str) (store : String) : Option Nat :=
  match (if store == "costco" then lines.findSome? costcoItemCountSearch else none) with
  | some n => some n
  | none => lines.findSome? itemCountSearch

/-!  ## Item parser -/

/-- A finalized line item. -/
structure Item where
  name : Str
  quantity : Nat
  price : ℚ
deriving DecidableEq, Repr

/-- The pending state of the multi-line item parser: the buffered name,
price, quantity, and the items finalized so far. -/
structure PendSt where
  pendingName : Option Str
  pendingPrice : Option ℚ
  pendingQty : Nat
  items : List Item
deriving DecidableEq, Repr

/-- The initial parser state. -/
def initSt : PendSt := ⟨none, none, 1, []⟩

/-- `_finalize_pending`: append the buffered candidate when it has a
nonempty name and a positive price, its cleaned name is ≥ 2 characters,
and it passes the price-sanity gate; then clear the buffer. -/
def finalizePending (total : Option ℚ) (store : String) (st : PendSt) : PendSt :=
  let items :=
    match st.pendingName, st.pendingPrice with
    | some nm, some p =>
      if nm ≠ [] && 0 < p then
        let name := cleanItemName nm store
        if name ≠ [] && 2 ≤ name.length then
          if (match total with
              | none => true
              | some t => p ≤ t * mkRat 11 10) then
            let name2 :=
              if (store == "costco" || store == "indian_grocery") &&
                  name == pyUpper name && 3 < name.length then
                pyTitle name
              else name
            st.items ++ [⟨name2, st.pendingQty, p⟩]
          else st.items
        else st.items
      else st.items
    | _, _ => st.items
  ⟨none, none, 1, items⟩

/-- One-line step of the `_extract_items` loop body below the skip checks:
classify the line by price and name content and update the pending
state. -/
def itemStep (store : String) (stripped : Str) (st : PendSt)
    (total : Option ℚ) : PendSt :=
  let price := findBestPrice stripped
  let isNameLine := hasItemName stripped
  match price, isNameLine with
  | none, true =>
    let st2 := finalizePending total store st
    ⟨some stripped, none, 1, st2.items⟩
  | some p, true =>
    let cleaned := cleanItemName stripped store
    if cleaned ≠ [] && 2 ≤ cleaned.length then
      let st2 := finalizePending total store st
      let qty := match qtyPriceSearch stripped with
        | some q => q
        | none => 1
      ⟨some stripped, some p, qty, st2.items⟩
    else
      (match st.pendingName with
       | some _ =>
         let qty := match qtyPriceSearch stripped with
           | some q => q
           | none => st.pendingQty
         ⟨st.pendingName, some p, qty, st.items⟩
       | none => st)
  | some p, false =>
    (match st.pendingName with
     | some _ =>
       let qty := match qtyPriceSearch stripped with
         | some q => q
         | none => st.pendingQty
       ⟨st.pendingName, some p, qty, st.items⟩
     | none => st)
  | none, false => st

/-- The line loop of `_extract_items`. -/
def extractItemsGo (store : String) (total : Option ℚ) :
    List Str → PendSt → List Item
  | [], st => (finalizePending total store st).items
  | line :: rest, st =>
    let stripped := stripWS line
    if stripped.isEmpty || stripped.length < 2 then
      extractItemsGo store total rest st
    else if anySubtotalKw stripped || anyTotalKw stripped then
      (finalizePending total store st).items
    else if isNonItemLine stripped store then
      extractItemsGo store total rest st
    else if dateReSearch stripped &&
        (stripWS (dateReSub stripped)).length < 5 then
      extractItemsGo store total rest st
    else
      extractItemsGo store total rest (itemStep store stripped st total)

/-- `_extract_items`. -/
def extractItems (lines : List Str) (total : Option ℚ) (store : String) :
    List Item :=
  extractItemsGo store total lines initSt

/-!  ## Validator -/

/-- The deduplication key: `(lowercased name, price)`. -/
def keyOf (it : Item) : Str × ℚ := (pyLower it.name, it.price)

/-- The seen-set deduplication loop of `_validate_items_against_total`. -/
def dedupGo (seen : List (Str × ℚ)) : List Item → List Item
  | [] => []
  | it :: rest =>
    if seen.contains (keyOf it) then dedupGo seen rest
    else it :: dedupGo (keyOf it :: seen) rest

/-- `_validate_items_against_total`: deduplicate by `(lowercased name,
price)` preserving first-seen order; the item-sum check only logs. -/
def validateItems (items : List Item) (_total _subtotal : Option ℚ) : List Item :=
  if items.isEmpty then items else dedupGo [] items

/-- Truthiness of an optional amount (Python `or`): present and nonzero. -/
def truthyQ (o : Option ℚ) : Option ℚ :=
  match o with
  | some v => if v == 0 then none else some v
  | none => none

/-- The warning condition of `_validate_items_against_total`:
`ref = subtotal or total` is truthy and the deduplicated sum exceeds
`ref * 2.5`. -/
def validateWarns (items : List Item) (total subtotal : Option ℚ) : Bool :=
  if items.isEmpty then false
  else
    match
      (match truthyQ subtotal with
       | some v => some v
       | none => truthyQ total) with
    | some ref => ref * mkRat 5 2 < ((dedupGo [] items).map Item.price).sum
    | none => false

/-- The specification's deduplication, stated from the spec's words: keep
each item, removing every later item that agrees with it on the
`(lowercased name, price)` key. -/
def specDedup : List Item → List Item
  | [] => []
  | it :: rest => it :: specDedup (rest.filter (fun x => !(keyOf x == keyOf it)))
termination_by l => l.length
decreasing_by
  exact Nat.lt_succ_of_le (List.length_filter_le _ _)

/-!  ## The assembled record -/

/-- The structured record returned by the `/ocr` endpoint. -/
structure ReceiptRecord where
  rawText : Str
  lines : List Str
  items : List Item
  merchant : Option Str
  purchaseDate : Option Str
  total : Option ℚ
  subtotal : Option ℚ
  tax : Option ℚ
  savings : Option ℚ
  currency : Option Str
  itemCount : Nat
  detectedStore : String
deriving DecidableEq, Repr

/-- Python `raw_text.split("\n")`. -/
def splitNL : Str → List Str
  | [] => [[]]
  | c :: t =>
    if c == '\n' then [] :: splitNL t
    else
      match splitNL t with
      | h :: r => (c :: h) :: r
      | [] => [[c]]

/-- `[l.strip() for l in raw_text.split("\n") if l.strip()]`. -/
def linesOf (rawText : Str) : List Str :=
  (splitNL rawText).filterMap (fun l =>
    let s := stripWS l
    if s.isEmpty then none else some s)

/-- The number of leading lines skipped before item parsing. -/
def skipCount (n : Nat) : Nat :=
  if 6 < n then 2 else if 2 < n then 1 else 0

/-- The record returned for empty detector output. -/
def emptyRecord : ReceiptRecord :=
  ⟨[], [], [], none, none, none, none, none, none, none, 0, "unknown"⟩

/-- The `/ocr` handler from the point the detector's text is available:
line splitting, store detection, field extraction, item parsing,
validation, and currency override. -/
def ocrFromText (rawText : Str) : ReceiptRecord :=
  if rawText.isEmpty then emptyRecord
  else
    let lines := linesOf rawText
    let store := detectStore lines rawText
    let merchant := extractMerchant lines store
    let purchaseDate := extractDate lines
    let tot := extractTotal lines
    let total := tot.1
    let currency0 :=
      match tot.2 with
      | some s => some s
      | none => some (extractCurrency rawText)
    let subtotal := extractSubtotal lines
    let tax := extractTax lines
    let savings := extractSavings lines
    let itemLines := lines.drop (skipCount lines.length)
    let items0 := extractItems itemLines total store
    let items := validateItems items0 total subtotal
    let receiptCount := extractItemCount lines store
    let itemCount :=
      match receiptCount with
      | some n => if n == 0 then items.length else n
      | none => items.length
    let currency :=
      if store == "indian_grocery" && currency0 == some "₹".toList then
        some "$".toList
      else currency0
    ⟨rawText, lines, items, merchant, purchaseDate, total, subtotal, tax,
     savings, currency, itemCount, store⟩

/-- A seven-line demonstration receipt whose first two lines carry an
item name and its price. -/
def demoRaw : Str :=
  "MILK\n3.99\nBREAD 2.50\nEGGS 4.00\nCHEESE 1.25\nJAM 1.75\nTOTAL 9.50".toList

/-!  ## Lemmas -/

/-- If the currency-token search fails everywhere, the fuelled
`CURRENCY_PRICE_RE` scan produces no matches. -/
theorem noCurFindallAux (fuel : Nat) :
    ∀ (prev : Option Char) (s : Str),
      searchFromO (fun _ t => (eatCurSymT true t).map Prod.fst) prev s = none →
      curPriceFindallAux fuel s = [] := by
  induction fuel with
  | zero => intro _ _ _; rfl
  | succ n ih =>
    intro prev s h
    cases s with
    | nil => rfl
    | cons c t =>
      cases hm : eatCurSymT true (c :: t) with
      | some v => simp [searchFromO, hm] at h
      | none =>
        have h2 : searchFromO (fun _ t => (eatCurSymT true t).map Prod.fst)
            (some c) t = none := by
          simpa [searchFromO, hm] using h
        simp only [curPriceFindallAux, curPriceAt, hm]
        exact ih (some c) t h2

/-- `CURRENCY_RE.search` failing implies `CURRENCY_PRICE_RE.findall` is
empty. -/
theorem noCur_currencyFindall (s : Str) (h : curSearchFirst s = none) :
    currencyFindall s = [] :=
  noCurFindallAux s.length none s h

/-- If the decimal-price search fails, the fuelled `DECIMAL_PRICE_RE` scan
produces no matches. -/
theorem noDecFindallAux (fuel : Nat) :
    ∀ (prev : Option Char) (s : Str),
      searchFrom (fun p t => (decAt p t).isSome) prev s = false →
      decFindallAux fuel prev s = [] := by
  induction fuel with
  | zero => intro _ _ _; rfl
  | succ n ih =>
    intro prev s h
    cases s with
    | nil => simp [decFindallAux, decAt]
    | cons c t =>
      cases hm : decAt prev (c :: t) with
      | some v => simp [searchFrom, hm] at h
      | none =>
        have h2 : searchFrom (fun p t => (decAt p t).isSome) (some c) t = false := by
          simpa [searchFrom, hm] using h
        simp only [decFindallAux, hm]
        exact ih (some c) t h2

/-- `decSearch` failing implies `DECIMAL_PRICE_RE.findall` is empty. -/
theorem noDec_decimalFindall (s : Str) (h : decSearch s = false) :
    decimalFindall s = [] :=
  noDecFindallAux s.length none s h

/-!  ## Claim theorems -/

/-- C1: `_find_best_price` returns the last currency-symbol-anchored
number on the line when one exists; otherwise the last bare number with
exactly two decimal digits when one exists; otherwise no value — in
particular, on a line with no currency token and no two-decimal number
(e.g. a line of bare integers) it returns no value. -/
theorem c1_find_best_price (s : Str) :
    (currencyFindall s ≠ [] →
       findBestPrice s = ((currencyFindall s).getLast?).map parseAmount) ∧
    (currencyFindall s = [] →
       findBestPrice s = ((decimalFindall s).getLast?).map parseAmount) ∧
    (curSearchFirst s = none → decSearch s = false → findBestPrice s = none) := by
  refine ⟨?_, ?_, ?_⟩
  · intro h
    unfold findBestPrice
    cases hg : (currencyFindall s).getLast? with
    | none => exact absurd (List.getLast?_eq_none_iff.mp hg) h
    | some g => simp
  · intro h
    unfold findBestPrice
    rw [h]
    rfl
  · intro h1 h2
    unfold findBestPrice
    rw [noCur_currencyFindall s h1, noDec_decimalFindall s h2]
    rfl

/-- Witness for C1 at concrete lines. -/
theorem c1_find_best_price_witness :
    (findBestPrice ("$3.49 9.99".toList) =
       ((currencyFindall ("$3.49 9.99".toList)).getLast?).map parseAmount) ∧
    findBestPrice ("5 ITEMS 3".toList) = none := by
  constructor
  · exact (c1_find_best_price ("$3.49 9.99".toList)).1 (by decide)
  · exact (c1_find_best_price ("5 ITEMS 3".toList)).2.2 (by decide) (by decide)

/-- C2 counterexample: for the lines `["MILK", "2 x 1.50"]` the finalized
price is the unit price 1.50, not the claimed qty × unit = 3.00. -/
theorem c2_counterexample :
    extractItems ["MILK".toList, "2 x 1.50".toList] none "generic" =
      [⟨"MILK".toList, 2, mkRat 3 2⟩] ∧ mkRat 3 2 ≠ (3 : ℚ) := by
  exact ⟨by with_unfolding_all decide, by decide⟩

/-- C2 (amended): a quantity-times-unit line processed as a price line for
a pending item records quantity = qty and price = the best price found on
the line (no multiplication of qty × unit is performed; for `"2 x 1.50"`
the recorded price is the unit price 1.50), and a later price line of the
same item overrides the price. -/
theorem c2_qty_price_no_multiplication :
    (∀ (store : String) (total : Option ℚ) (st : PendSt) (l : Str) (p : ℚ) (q : Nat),
        st.pendingName.isSome = true →
        hasItemName l = false →
        findBestPrice l = some p →
        qtyPriceSearch l = some q →
        itemStep store l st total = ⟨st.pendingName, some p, q, st.items⟩) ∧
    extractItems ["MILK".toList, "2 x 1.50".toList] none "generic" =
      [⟨"MILK".toList, 2, mkRat 3 2⟩] := by
  constructor
  · intro store total st l p q h1 h2 h3 h4
    cases hn : st.pendingName with
    | none => rw [hn] at h1; simp at h1
    | some nm =>
      simp only [itemStep, h3, h2, h4, hn]
  · with_unfolding_all decide

/-- Witness for the amended C2 at a concrete state and line. -/
theorem c2_qty_price_witness :
    itemStep "generic" ("2 x 1.50".toList) ⟨some ("MILK".toList), none, 1, []⟩ none =
      ⟨some ("MILK".toList), some (mkRat 3 2), 2, []⟩ := by
  exact (c2_qty_price_no_multiplication.1 "generic" none
    ⟨some ("MILK".toList), none, 1, []⟩ ("2 x 1.50".toList) (mkRat 3 2) 2
    (by decide) (by decide) (by with_unfolding_all decide) (by decide))

/-- C5 counterexample: the subtotal extractor's forward scan does not stop
at a savings-keyword line — for `["SUBTOTAL", "You saved 5.00"]` it
returns 5.00 from the savings line instead of stopping. -/
theorem c5_counterexample :
    extractSubtotal ["SUBTOTAL".toList, "You saved 5.00".toList] = some 5 ∧
    anySavingsKw ("You saved 5.00".toList) = true ∧
    findBestPrice ("SUBTOTAL".toList) = none := by
  exact ⟨by with_unfolding_all decide, by decide, by decide⟩

/-- C5 (amended): the total and savings extractors' forward scans stop at
a line matching any of the four competing keyword categories, but the
subtotal and tax extractors' scans stop only at total/subtotal/tax
keyword lines — a savings-keyword line does not stop them, and a monetary
value on such a line (within the extractor's gates) is returned. -/
theorem c5_lookahead_stop_sets :
    (∀ (l : Str) (ls : List Str),
        (anyTotalKw l || anySubtotalKw l || anyTaxKw l || anySavingsKw l) = true →
        totalLookahead (l :: ls) = none ∧ savingsLookahead (l :: ls) = none) ∧
    (∀ (l : Str) (ls : List Str),
        (anyTotalKw l || anySubtotalKw l || anyTaxKw l) = true →
        subtotalLookahead (l :: ls) = none ∧ taxLookahead (l :: ls) = none) ∧
    (∀ (l : Str) (ls : List Str) (v : ℚ),
        anySavingsKw l = true →
        (anyTotalKw l || anySubtotalKw l || anyTaxKw l) = false →
        findBestPrice l = some v → mkRat 1 100 ≤ v →
        subtotalLookahead (l :: ls) = some v ∧
        (v < 500 → taxLookahead (l :: ls) = some v)) := by
  refine ⟨?_, ?_, ?_⟩
  · intro l ls h
    constructor
    · simp only [totalLookahead, h, if_true]
    · have h2 : (anyTotalKw l || anySubtotalKw l || anyTaxKw l || anySavingsKw l) = true := h
      simp only [savingsLookahead, h2, if_true]
  · intro l ls h
    constructor
    · simp only [subtotalLookahead, h, if_true]
    · simp only [taxLookahead, h, if_true]
  · intro l ls v h1 h2 h3 h4
    constructor
    · simp only [subtotalLookahead, h2, Bool.false_eq_true, if_false, h3]
      rw [if_pos h4]
    · intro h5
      simp only [taxLookahead, h2, Bool.false_eq_true, if_false, h3]
      rw [if_pos]
      simp only [Bool.and_eq_true, decide_eq_true_eq]
      exact ⟨h4, h5⟩

/-- Witness for the amended C5 at concrete lines. -/
theorem c5_lookahead_witness :
    (totalLookahead ["TAX 1.00".toList, "9.99".toList] = none ∧
       savingsLookahead ["TAX 1.00".toList, "9.99".toList] = none) ∧
    (subtotalLookahead ["TOTAL 9.99".toList] = none ∧
       taxLookahead ["TOTAL 9.99".toList] = none) ∧
    subtotalLookahead ["You saved 5.00".toList] = some 5 := by
  refine ⟨?_, ?_, ?_⟩
  · exact c5_lookahead_stop_sets.1 ("TAX 1.00".toList) ["9.99".toList] (by decide)
  · exact c5_lookahead_stop_sets.2.1 ("TOTAL 9.99".toList) [] (by decide)
  · exact (c5_lookahead_stop_sets.2.2 ("You saved 5.00".toList) [] 5 (by decide)
      (by decide) (by with_unfolding_all decide) (by with_unfolding_all decide)).1

/-- The seen-set deduplication equals the specification's first-occurrence
deduplication on the items whose key is not yet seen. -/
theorem dedupGo_eq_specDedup :
    ∀ (items : List Item) (seen : List (Str × ℚ)),
      dedupGo seen items =
        specDedup (items.filter (fun x => !(seen.contains (keyOf x)))) := by
  intro items
  induction items with
  | nil => intro seen; simp [dedupGo, specDedup]
  | cons it rest ih =>
    intro seen
    by_cases hc : seen.contains (keyOf it) = true
    · simp only [dedupGo, hc, if_true, List.filter_cons, Bool.not_true,
        Bool.false_eq_true, if_false]
      exact ih seen
    · have hc2 : seen.contains (keyOf it) = false := by
        cases h : seen.contains (keyOf it)
        · rfl
        · exact absurd h hc
      simp only [dedupGo, hc2, Bool.false_eq_true, if_false, List.filter_cons,
        Bool.not_false, if_true]
      rw [ih (keyOf it :: seen), specDedup, List.filter_filter]
      apply congrArg
      apply congrArg
      apply List.filter_congr
      intro x _
      show (!(keyOf it :: seen).contains (keyOf x)) =
        (!(keyOf x == keyOf it) && !(seen.contains (keyOf x)))
      rw [Bool.eq_iff_iff]
      simp [List.contains_cons]

/-- C6: the validator returns exactly the input list with every later
duplicate (same lowercased name and price) removed, preserving first-seen
order; the item-sum-vs-reference warning check never alters the returned
items — the result does not depend on the total or subtotal at all. -/
theorem c6_validator_dedup (items : List Item) (total subtotal : Option ℚ) :
    validateItems items total subtotal = specDedup items ∧
    (∀ t2 s2 : Option ℚ, validateItems items total subtotal = validateItems items t2 s2) := by
  constructor
  · unfold validateItems
    cases items with
    | nil => simp [dedupGo, specDedup]
    | cons it rest =>
      simp only [List.isEmpty_cons, Bool.false_eq_true, if_false]
      rw [dedupGo_eq_specDedup]
      congr 1
      simp
  · intro t2 s2; rfl

/-- C8 counterexample: an item whose cleaned name has alphabetic ratio
below 25% (3 letters out of 19 characters) appears in the output item
list — there is no ratio gate. -/
theorem c8_counterexample :
    extractItems ["ABC 1.2 3.4 5.6 7.8".toList, "2.00".toList] none "generic" =
      [⟨"ABC 1.2 3.4 5.6 7.8".toList, 1, 2⟩] ∧
    4 * (("ABC 1.2 3.4 5.6 7.8".toList).filter Char.isAlpha).length <
      ("ABC 1.2 3.4 5.6 7.8".toList).length := by
  exact ⟨by with_unfolding_all decide, by decide⟩

/-- C8 (amended): at finalization a pending candidate is dropped when its
cleaned name is shorter than 2 characters or, when the total is known,
its price exceeds total × 1.1; there is no alphabetic-ratio gate — any
candidate with a nonempty buffered name, positive price, cleaned name of
length ≥ 2 and in-bound price is kept, whatever its alphabetic ratio. -/
theorem c8_finalize_gate :
    (∀ (total : Option ℚ) (store : String) (nm : Str) (p : ℚ) (qty : Nat)
        (items : List Item),
        (cleanItemName nm store).length < 2 →
        (finalizePending total store ⟨some nm, some p, qty, items⟩).items = items) ∧
    (∀ (t : ℚ) (store : String) (nm : Str) (p : ℚ) (qty : Nat) (items : List Item),
        t * mkRat 11 10 < p →
        (finalizePending (some t) store ⟨some nm, some p, qty, items⟩).items = items) ∧
    (∀ (total : Option ℚ) (store : String) (nm : Str) (p : ℚ) (qty : Nat)
        (items : List Item),
        nm ≠ [] → 0 < p → 2 ≤ (cleanItemName nm store).length →
        (∀ t, total = some t → p ≤ t * mkRat 11 10) →
        ∃ finalName,
          (finalizePending total store ⟨some nm, some p, qty, items⟩).items =
            items ++ [⟨finalName, qty, p⟩]) := by
  refine ⟨?_, ?_, ?_⟩
  · intro total store nm p qty items h
    simp only [finalizePending]
    split
    · split
      · rename_i h1 h2
        rw [Bool.and_eq_true, decide_eq_true_eq, decide_eq_true_eq] at h2
        omega
      · rfl
    · rfl
  · intro t store nm p qty items h
    simp only [finalizePending]
    split
    · split
      · split
        · rename_i h3
          rw [decide_eq_true_eq] at h3
          exact absurd h3 (not_le.mpr h)
        · rfl
      · rfl
    · rfl
  · intro total store nm p qty items h1 h2 h3 h4
    simp only [finalizePending]
    rw [if_pos, if_pos, if_pos]
    · exact ⟨_, rfl⟩
    · cases total with
      | none => simp
      | some t => simpa using h4 t rfl
    · rw [Bool.and_eq_true, decide_eq_true_eq, decide_eq_true_eq]
      refine ⟨?_, h3⟩
      intro hnil
      rw [hnil] at h3
      simp at h3
    · rw [Bool.and_eq_true, decide_eq_true_eq, decide_eq_true_eq]
      exact ⟨h1, h2⟩

/-- Witness for the amended C8 at concrete candidates. -/
theorem c8_finalize_gate_witness :
    ((finalizePending none "generic" ⟨some ("A".toList), some 2, 1, []⟩).items = []) ∧
    ((finalizePending (some 10) "generic" ⟨some ("BIG TV".toList), some 12, 1, []⟩).items = []) ∧
    (∃ finalName,
       (finalizePending none "generic"
         ⟨some ("ABC 1.2 3.4 5.6 7.8".toList), some 2, 1, []⟩).items =
       [] ++ [⟨finalName, 1, 2⟩]) := by
  refine ⟨?_, ?_, ?_⟩
  · exact c8_finalize_gate.1 none "generic" ("A".toList) 2 1 [] (by decide)
  · exact c8_finalize_gate.2.1 10 "generic" ("BIG TV".toList) 12 1 []
      (by with_unfolding_all decide)
  · exact c8_finalize_gate.2.2 none "generic" ("ABC 1.2 3.4 5.6 7.8".toList) 2 1 []
      (by decide) (by with_unfolding_all decide) (by decide)
      (fun t ht => nomatch ht)

/-- An ordered pattern table yields no match when every entry fails. -/
theorem storeFind_eq_none :
    ∀ (tbl : List (String × List (Str → Bool))) (h : Str),
      (∀ e ∈ tbl, e.2.any (fun p => p h) = false) → storeFind tbl h = none := by
  intro tbl h
  induction tbl with
  | nil => intro _; rfl
  | cons e rest ih =>
    intro hall
    have he := hall e (List.mem_cons_self e rest)
    simp only [storeFind, he, Bool.false_eq_true, if_false]
    exact ih (fun x hx => hall x (List.mem_cons_of_mem e hx))

/-- An ordered pattern table returns the first matching entry. -/
theorem storeFind_first :
    ∀ (tbl : List (String × List (Str → Bool))) (h : Str) (i : Nat)
      (hi : i < tbl.length),
      (tbl.get ⟨i, hi⟩).2.any (fun p => p h) = true →
      ((tbl.take i).all (fun e => !(e.2.any (fun p => p h)))) = true →
      storeFind tbl h = some (tbl.get ⟨i, hi⟩).1 := by
  intro tbl h i
  induction tbl generalizing i with
  | nil => intro hi; exact absurd hi (by simp)
  | cons e rest ih =>
    intro hi hmatch hprior
    cases i with
    | zero =>
      simp only [List.get] at hmatch ⊢
      simp only [storeFind, hmatch, if_true]
    | succ j =>
      simp only [List.take, List.all_cons, Bool.and_eq_true, Bool.not_eq_eq_eq_not,
        Bool.not_true] at hprior
      simp only [storeFind, hprior.1, Bool.false_eq_true, if_false]
      simp only [List.get] at hmatch ⊢
      exact ih j (Nat.lt_of_succ_lt_succ hi) hmatch hprior.2

/-- C4: store classification scans only the first 10 lines against the
ordered template table (costco, walmart, target, indian_grocery, kroger,
aldi, trader_joes, whole_foods, heb) and returns the first template any
of whose patterns matches; with no header match it rescans the full raw
text against the indian_grocery patterns, returning `"generic"` only when
that also fails; the header `"WALMART SUPERCENTER #1234"` classifies as
walmart. -/
theorem c4_store_detection :
    detectStore ["WALMART SUPERCENTER #1234".toList]
        ("WALMART SUPERCENTER #1234".toList) = "walmart" ∧
    (∀ (lines : List Str) (raw : Str),
       (∀ e ∈ storePatterns, e.2.any (fun p => p (joinNL (lines.take 10))) = false) →
       (indianPatterns.any (fun p => p raw) = false →
          detectStore lines raw = "generic") ∧
       (indianPatterns.any (fun p => p raw) = true →
          detectStore lines raw = "indian_grocery")) ∧
    (∀ (lines : List Str) (raw : Str) (i : Nat) (hi : i < storePatterns.length),
       (storePatterns.get ⟨i, hi⟩).2.any (fun p => p (joinNL (lines.take 10))) = true →
       ((storePatterns.take i).all
         (fun e => !(e.2.any (fun p => p (joinNL (lines.take 10)))))) = true →
       detectStore lines raw = (storePatterns.get ⟨i, hi⟩).1) := by
  refine ⟨by decide, ?_, ?_⟩
  · intro lines raw hall
    unfold detectStore
    rw [storeFind_eq_none storePatterns _ hall]
    constructor
    · intro hno
      simp only [hno, Bool.false_eq_true, if_false]
    · intro hyes
      simp only [hyes, if_true]
  · intro lines raw i hi hmatch hprior
    unfold detectStore
    rw [storeFind_first storePatterns _ i hi hmatch hprior]

/-- Witness for C4 at concrete headers. -/
theorem c4_store_detection_witness :
    detectStore ["HELLO WORLD".toList] ("HELLO WORLD".toList) = "generic" ∧
    detectStore ["WALMART".toList] ("WALMART".toList) =
      (storePatterns.get ⟨1, by decide⟩).1 := by
  constructor
  · exact ((c4_store_detection.2.1 ["HELLO WORLD".toList] ("HELLO WORLD".toList)
      (by intro e he; fin_cases he <;> decide)).1 (by decide))
  · exact c4_store_detection.2.2 ["WALMART".toList] ("WALMART".toList) 1 (by decide)
      (by decide) (by decide)

/-- Finalization preserves the price bound: with a known total, every
item in the state after `_finalize_pending` is bounded by `total × 1.1`
whenever the items already were. -/
theorem finalize_items_bound (store : String) (st : PendSt) (t : ℚ)
    (hinv : ∀ it ∈ st.items, it.price ≤ t * mkRat 11 10) :
    ∀ it ∈ (finalizePending (some t) store st).items, it.price ≤ t * mkRat 11 10 := by
  intro it hmem
  simp only [finalizePending] at hmem
  split at hmem
  · rename_i nm p _ _
    split at hmem
    · split at hmem
      · split at hmem
        · rename_i hgate
          rw [decide_eq_true_eq] at hgate
          rcases List.mem_append.mp hmem with hl | hr
          · exact hinv it hl
          · rw [List.mem_singleton.mp hr]
            exact hgate
        · exact hinv it hmem
      · exact hinv it hmem
    · exact hinv it hmem
  · exact hinv it hmem

/-- Each parser step preserves the price bound on the accumulated
items. -/
theorem itemStep_items_bound (store : String) (l : Str) (st : PendSt) (t : ℚ)
    (hinv : ∀ it ∈ st.items, it.price ≤ t * mkRat 11 10) :
    ∀ it ∈ (itemStep store l st (some t)).items, it.price ≤ t * mkRat 11 10 := by
  intro it hmem
  simp only [itemStep] at hmem
  split at hmem
  · exact finalize_items_bound store st t hinv it hmem
  · split at hmem
    · exact finalize_items_bound store st t hinv it hmem
    · split at hmem
      · exact hinv it hmem
      · exact hinv it hmem
  · split at hmem
    · exact hinv it hmem
    · exact hinv it hmem
  · exact hinv it hmem

/-- The item-extraction loop preserves the price bound. -/
theorem extractItemsGo_bound (store : String) (t : ℚ) :
    ∀ (lines : List Str) (st : PendSt),
      (∀ it ∈ st.items, it.price ≤ t * mkRat 11 10) →
      ∀ it ∈ extractItemsGo store (some t) lines st, it.price ≤ t * mkRat 11 10 := by
  intro lines
  induction lines with
  | nil =>
    intro st hinv it hmem
    exact finalize_items_bound store st t hinv it hmem
  | cons l rest ih =>
    intro st hinv it hmem
    simp only [extractItemsGo] at hmem
    split at hmem
    · exact ih st hinv it hmem
    · split at hmem
      · exact finalize_items_bound store st t hinv it hmem
      · split at hmem
        · exact ih st hinv it hmem
        · split at hmem
          · exact ih st hinv it hmem
          · exact ih _ (itemStep_items_bound store _ st t hinv) it hmem

/-- The deduplication loop only returns input items. -/
theorem dedupGo_subset :
    ∀ (items : List Item) (seen : List (Str × ℚ)) (it : Item),
      it ∈ dedupGo seen items → it ∈ items := by
  intro items
  induction items with
  | nil => intro seen it h; exact absurd h (by simp [dedupGo])
  | cons x rest ih =>
    intro seen it h
    simp only [dedupGo] at h
    split at h
    · exact List.mem_cons_of_mem _ (ih seen it h)
    · rcases List.mem_cons.mp h with h1 | h1
      · exact List.mem_cons.mpr (Or.inl h1)
      · exact List.mem_cons.mpr (Or.inr (ih _ it h1))

/-- The validator only returns input items. -/
theorem validateItems_subset (items : List Item) (t s : Option ℚ) (it : Item)
    (h : it ∈ validateItems items t s) : it ∈ items := by
  unfold validateItems at h
  split at h
  · exact h
  · exact dedupGo_subset items [] it h

/-- C3: whenever the extracted total is known, every line item of the
returned record has price ≤ 1.1 × total, and any finalize-time candidate
whose price exceeds 1.1 × total leaves the item list unchanged. -/
theorem c3_price_sanity :
    (∀ (raw : Str) (t : ℚ), (ocrFromText raw).total = some t →
       ∀ it ∈ (ocrFromText raw).items, it.price ≤ t * mkRat 11 10) ∧
    (∀ (t : ℚ) (store : String) (st : PendSt) (p : ℚ),
       st.pendingPrice = some p → t * mkRat 11 10 < p →
       (finalizePending (some t) store st).items = st.items) := by
  constructor
  · intro raw t h it hmem
    by_cases hr : raw.isEmpty = true
    · rw [List.isEmpty_iff.mp hr] at h
      exact absurd h (by simp [ocrFromText, emptyRecord])
    · rw [Bool.not_eq_true] at hr
      simp only [ocrFromText, hr, Bool.false_eq_true, if_false] at h hmem
      rw [h] at hmem
      have h2 := validateItems_subset _ _ _ it hmem
      exact extractItemsGo_bound _ t _ initSt (by simp [initSt]) it h2
  · intro t store st p hp h
    simp only [finalizePending, hp]
    split
    · rename_i nm p2 heq1 heq2
      cases heq2
      split
      · split
        · rw [if_neg (by simp only [decide_eq_true_eq]; exact not_le.mpr h)]
        · rfl
      · rfl
    · rfl

/-- Witness for C3 at a concrete receipt. -/
theorem c3_price_sanity_witness :
    (⟨"BREAD".toList, 1, mkRat 5 2⟩ : Item).price ≤ mkRat 19 2 * mkRat 11 10 ∧
    (finalizePending (some 10) "generic"
      ⟨some ("BIG TV".toList), some 1500, 1, []⟩).items = [] := by
  constructor
  · exact (c3_price_sanity.1
      ("MILK\n3.99\nBREAD 2.50\nEGGS 4.00\nCHEESE 1.25\nJAM 1.75\nTOTAL 9.50".toList)
      (mkRat 19 2) (by with_unfolding_all decide)
      ⟨"BREAD".toList, 1, mkRat 5 2⟩ (by with_unfolding_all decide))
  · exact c3_price_sanity.2 10 "generic" ⟨some ("BIG TV".toList), some 1500, 1, []⟩
      1500 rfl (by with_unfolding_all decide)

/-- A currency token at the head of a string survives appending on the
right. -/
theorem eatCurSymT_append (s v : Str)
    (h : (eatCurSymT true s).isSome = true) :
    (eatCurSymT true (s ++ v)).isSome = true := by
  cases s with
  | nil => simp [eatCurSymT] at h
  | cons c t =>
    unfold eatCurSymT at h ⊢
    by_cases h1 : (c == '₹' || c == '$' || c == '£' || c == '€') = true
    · simp only [List.cons_append, h1, if_true]
      rfl
    · rw [Bool.not_eq_true] at h1
      simp only [h1, Bool.false_eq_true, if_false] at h
      simp only [List.cons_append, h1, Bool.false_eq_true, if_false]
      by_cases h2 : (c == 'R' || true && c == 'r') = true
      · simp only [h2, if_true] at h
        simp only [h2, if_true]
        cases t with
        | nil => simp at h
        | cons c2 t2 =>
          by_cases h3 : (c2 == 's' || true && c2 == 'S') = true
          · simp only [List.cons_append, h3, if_true]
            split <;> rfl
          · rw [Bool.not_eq_true] at h3
            simp only [h3, Bool.false_eq_true, if_false] at h
            simp at h
      · rw [Bool.not_eq_true] at h2
        simp only [h2, Bool.false_eq_true, if_false] at h
        simp at h

/-- The currency-token search ignores the preceding-character argument. -/
theorem curSearch_prev_irrel :
    ∀ (s : Str) (p q : Option Char),
      searchFromO (fun _ t => (eatCurSymT true t).map Prod.fst) p s =
      searchFromO (fun _ t => (eatCurSymT true t).map Prod.fst) q s := by
  intro s
  induction s with
  | nil => intro p q; rfl
  | cons c t ih =>
    intro p q
    simp only [searchFromO]

/-- A successful currency-token search survives appending on the right. -/
theorem curSearch_append_right :
    ∀ (s v : Str) (p : Option Char),
      (searchFromO (fun _ t => (eatCurSymT true t).map Prod.fst) p s).isSome = true →
      (searchFromO (fun _ t => (eatCurSymT true t).map Prod.fst) p (s ++ v)).isSome = true := by
  intro s
  induction s with
  | nil =>
    intro v p h
    simp [searchFromO, eatCurSymT] at h
  | cons c t ih =>
    intro v p h
    have hgoal : (c :: t) ++ v = c :: (t ++ v) := List.cons_append c t v
    rw [hgoal]
    simp only [searchFromO] at h ⊢
    cases hm : eatCurSymT true (c :: t) with
    | some x =>
      have hx := eatCurSymT_append (c :: t) v (by rw [hm]; rfl)
      rw [hgoal] at hx
      cases hm2 : eatCurSymT true (c :: (t ++ v)) with
      | none => rw [hm2] at hx; simp at hx
      | some y => simp [hm2]
    | none =>
      rw [hm] at h
      have h2 := ih v (some c) h
      cases hm3 : eatCurSymT true (c :: (t ++ v)) with
      | some y => simp [hm3]
      | none => simpa [hm3] using h2

/-- A successful currency-token search survives prepending on the left. -/
theorem curSearch_append_left :
    ∀ (u s : Str),
      (curSearchFirst s).isSome = true → (curSearchFirst (u ++ s)).isSome = true := by
  intro u
  induction u with
  | nil => intro s h; exact h
  | cons c t ih =>
    intro s h
    have h2 := ih s h
    show (searchFromO (fun _ t => (eatCurSymT true t).map Prod.fst) none
      (c :: (t ++ s))).isSome = true
    simp only [searchFromO]
    cases hm : eatCurSymT true (c :: (t ++ s)) with
    | some y => simp [hm]
    | none =>
      show (searchFromO (fun _ t => (eatCurSymT true t).map Prod.fst)
        (some c) (t ++ s)).isSome = true
      rw [curSearch_prev_irrel (t ++ s) (some c) none]
      exact h2

/-- A currency token inside the stripped string is a token inside the
original string. -/
theorem curSearch_stripBy (p : Char → Bool) (s : Str)
    (h : (curSearchFirst (stripBy p s)).isSome = true) :
    (curSearchFirst s).isSome = true := by
  obtain ⟨a, ha⟩ := List.dropWhile_suffix (l := s) p
  obtain ⟨b, hb⟩ := List.dropWhile_suffix (l := (s.dropWhile p).reverse) p
  have hmid : s.dropWhile p = stripBy p s ++ b.reverse := by
    unfold stripBy
    calc s.dropWhile p = (s.dropWhile p).reverse.reverse := by rw [List.reverse_reverse]
    _ = (b ++ (s.dropWhile p).reverse.dropWhile p).reverse := by rw [hb]
    _ = ((s.dropWhile p).reverse.dropWhile p).reverse ++ b.reverse := by
        rw [List.reverse_append]
  have h1 : (curSearchFirst (s.dropWhile p)).isSome = true := by
    rw [hmid]
    exact curSearch_append_right _ _ none h
  rw [← ha]
  exact curSearch_append_left a _ h1

/-- `splitNL` never returns an empty list of pieces. -/
theorem splitNL_ne_nil : ∀ s : Str, splitNL s ≠ [] := by
  intro s
  cases s with
  | nil => simp [splitNL]
  | cons c t =>
    simp only [splitNL]
    split
    · simp
    · split
      · simp
      · simp

/-- The head piece of `splitNL` is a prefix of the string. -/
theorem splitNL_head_prefix :
    ∀ (s h : Str) (r : List Str), splitNL s = h :: r → ∃ v, s = h ++ v := by
  intro s
  induction s with
  | nil =>
    intro h r he
    simp only [splitNL, List.cons.injEq] at he
    exact ⟨[], by rw [← he.1]; rfl⟩
  | cons c t ih =>
    intro h r he
    simp only [splitNL] at he
    by_cases hc : (c == '\n') = true
    · rw [if_pos hc] at he
      cases he
      exact ⟨c :: t, rfl⟩
    · rw [Bool.not_eq_true] at hc
      rw [hc] at he
      simp only [Bool.false_eq_true, if_false] at he
      cases hs : splitNL t with
      | nil => exact absurd hs (splitNL_ne_nil t)
      | cons h2 r2 =>
        rw [hs] at he
        have hh : h = c :: h2 := by
          injection he with he1 he2
          exact he1.symm
        obtain ⟨v, hv⟩ := ih h2 r2 hs
        exact ⟨v, by rw [hh, List.cons_append, ← hv]⟩

/-- A currency token in any piece of `splitNL` is a token in the whole
string. -/
theorem splitNL_hasTok :
    ∀ (s : Str) (l : Str), l ∈ splitNL s →
      (curSearchFirst l).isSome = true → (curSearchFirst s).isSome = true := by
  intro s
  induction s with
  | nil =>
    intro l hl h
    simp only [splitNL, List.mem_singleton] at hl
    subst hl
    exact h
  | cons c t ih =>
    intro l hl h
    simp only [splitNL] at hl
    by_cases hc : (c == '\n') = true
    · rw [if_pos hc] at hl
      rcases List.mem_cons.mp hl with h1 | h1
      · subst h1; simp [curSearchFirst, searchTopO, searchFromO, eatCurSymT] at h
      · have h2 := ih l h1 h
        exact curSearch_append_left [c] t h2
    · rw [Bool.not_eq_true] at hc
      rw [hc] at hl
      simp only [Bool.false_eq_true, if_false] at hl
      cases hs : splitNL t with
      | nil => exact absurd hs (splitNL_ne_nil t)
      | cons h2 r2 =>
        rw [hs] at hl
        rcases List.mem_cons.mp hl with h1 | h1
        · subst h1
          obtain ⟨v, hv⟩ := splitNL_head_prefix t h2 r2 hs
          have h3 : (curSearchFirst ((c :: h2) ++ v)).isSome = true := by
            have := curSearch_append_right (c :: h2) v none h
            exact this
          rw [List.cons_append, ← hv] at h3
          exact h3
        · have h4 : l ∈ splitNL t := by rw [hs]; exact List.mem_cons_of_mem h2 h1
          have h5 := ih l h4 h
          exact curSearch_append_left [c] t h5

/-- With no currency token in the raw text, no line of the pipeline has
one either. -/
theorem linesOf_noTok (raw : Str) (h : curSearchFirst raw = none) :
    ∀ l ∈ linesOf raw, curSearchFirst l = none := by
  intro l hl
  rcases List.mem_filterMap.mp hl with ⟨a, ha, hfa⟩
  have hstrip : l = stripWS a := by
    by_cases he : (stripWS a).isEmpty = true
    · simp [he] at hfa
    · rw [Bool.not_eq_true] at he
      simp [he] at hfa
      exact hfa.symm
  cases hopt : curSearchFirst l with
  | none => rfl
  | some x =>
    exfalso
    have h1 : (curSearchFirst l).isSome = true := by rw [hopt]; rfl
    rw [hstrip] at h1
    have h2 := curSearch_stripBy isSpaceC a h1
    have h3 := splitNL_hasTok raw a ha h2
    rw [h] at h3
    simp at h3

/-- `List.findSome?` yields `none` when the function fails on every
element. -/
theorem findSome?_none_of_all {α β : Type} (f : α → Option β) :
    ∀ l : List α, (∀ a ∈ l, f a = none) → l.findSome? f = none := by
  intro l
  induction l with
  | nil => intro _; rfl
  | cons a rest ih =>
    intro hall
    rw [List.findSome?_cons, hall a (List.mem_cons_self a rest)]
    exact ih (fun x hx => hall x (List.mem_cons_of_mem a hx))

/-- A successful `List.findSome?` comes from some element. -/
theorem findSome?_some_mem {α β : Type} (f : α → Option β) :
    ∀ (l : List α) (b : β), l.findSome? f = some b → ∃ a ∈ l, f a = some b := by
  intro l
  induction l with
  | nil => intro b h; simp [List.findSome?] at h
  | cons a rest ih =>
    intro b h
    rw [List.findSome?_cons] at h
    cases hf : f a with
    | some y =>
      rw [hf] at h
      have h2 : some y = some b := h
      exact ⟨a, List.mem_cons_self a rest, hf.trans h2⟩
    | none =>
      rw [hf] at h
      have h2 : List.findSome? f rest = some b := h
      obtain ⟨x, hx, hfx⟩ := ih b h2
      exact ⟨x, List.mem_cons_of_mem a hx, hfx⟩

/-- The total extractor's currency lookup fails when no involved line has
a currency token. -/
theorem totalCurrencyLookup_none (l : Str) (next3 : List Str)
    (hl : curSearchFirst l = none) (hn : ∀ x ∈ next3, curSearchFirst x = none) :
    totalCurrencyLookup l next3 = none := by
  unfold totalCurrencyLookup
  rw [hl, findSome?_none_of_all _ next3 hn]
  rfl

/-- The keyword scan of the total extractor yields no currency symbol when
no line has a currency token. -/
theorem totalTryLines_sym_none (kw : Str → Bool) :
    ∀ (lines : List Str), (∀ l ∈ lines, curSearchFirst l = none) →
      ∀ r, totalTryLines kw lines = some r → r.2 = none := by
  intro lines
  induction lines with
  | nil => intro _ r h; simp [totalTryLines] at h
  | cons l rest ih =>
    intro hall r h
    have hrest : ∀ x ∈ rest, curSearchFirst x = none :=
      fun x hx => hall x (List.mem_cons_of_mem l hx)
    simp only [totalTryLines] at h
    split at h
    · split at h
      · exact ih hrest r h
      · split at h
        · exact ih hrest r h
        · split at h
          · exact ih hrest r h
          · split at h
            · split at h
              · cases h
                exact totalCurrencyLookup_none l _
                  (hall l (List.mem_cons_self l rest))
                  (fun x hx => hrest x (List.mem_of_mem_take hx))
              · exact ih hrest r h
            · exact ih hrest r h
    · exact ih hrest r h

/-- The bottom-up fallback of the total extractor yields no currency
symbol when no line has a currency token. -/
theorem totalFallback_sym_none :
    ∀ (lines : List Str), (∀ l ∈ lines, curSearchFirst l = none) →
      ∀ r, totalFallback lines = some r → r.2 = none := by
  intro lines
  induction lines with
  | nil => intro _ r h; simp [totalFallback] at h
  | cons l rest ih =>
    intro hall r h
    have hrest : ∀ x ∈ rest, curSearchFirst x = none :=
      fun x hx => hall x (List.mem_cons_of_mem l hx)
    simp only [totalFallback] at h
    split at h
    · exact ih hrest r h
    · split at h
      · exact ih hrest r h
      · split at h
        · exact ih hrest r h
        · split at h
          · split at h
            · cases h
              rw [hall l (List.mem_cons_self l rest)]
              rfl
            · exact ih hrest r h
          · exact ih hrest r h

/-- The total extractor yields no currency symbol when no line has a
currency token. -/
theorem extractTotal_sym_none (lines : List Str)
    (hall : ∀ l ∈ lines, curSearchFirst l = none) :
    (extractTotal lines).2 = none := by
  unfold extractTotal
  cases hf : totalKeywords.findSome? (fun kw => totalTryLines kw lines) with
  | some r =>
    obtain ⟨kw, _, hkw⟩ := findSome?_some_mem _ totalKeywords r hf
    exact totalTryLines_sym_none kw lines hall r hkw
  | none =>
    cases hb : totalFallback lines.reverse with
    | some r =>
      exact totalFallback_sym_none lines.reverse
        (fun l hl => hall l (List.mem_reverse.mp hl)) r hb
    | none => rfl

/-- The currency field of a nonempty-input record, as assembled by the
handler. -/
theorem ocr_currency_char (raw : Str) (hne : raw.isEmpty = false) :
    (ocrFromText raw).currency =
      (if detectStore (linesOf raw) raw == "indian_grocery" &&
          (match (extractTotal (linesOf raw)).2 with
           | some s => some s
           | none => some (extractCurrency raw)) == some ("₹".toList) then
         some ("$".toList)
       else
         (match (extractTotal (linesOf raw)).2 with
          | some s => some s
          | none => some (extractCurrency raw))) := by
  simp only [ocrFromText, hne, Bool.false_eq_true, if_false]

/-- C9 counterexample: for raw text `"Rs. 45.00\nmasala"` the first
currency token is the `Rs`-family token `"Rs."`, yet the returned
currency is `"$"` (the detected store is indian_grocery, which overrides
the rupee sign), refuting the claim that an `Rs`-first text always yields
`"₹"`. -/
theorem c9_counterexample :
    curSearchFirst ("Rs. 45.00\nmasala".toList) = some ("Rs.".toList) ∧
    rsFamily ("Rs.".toList) = true ∧
    (ocrFromText ("Rs. 45.00\nmasala".toList)).currency = some ("$".toList) ∧
    ("$".toList : Str) ≠ "₹".toList := by
  exact ⟨by decide, by decide, by with_unfolding_all decide, by decide⟩

/-- C9 (amended): when the raw text contains no currency token at all the
currency field defaults to `"$"`; when the first currency token is an
`Rs`-family token the currency field is `"₹"` provided the detected store
is not indian_grocery (which overrides `"₹"` to `"$"`) and the total
extractor found no currency symbol of its own (or found a rupee sign,
which takes precedence over the raw-text scan). -/
theorem c9_currency_field :
    (∀ raw : Str, raw ≠ [] → curSearchFirst raw = none →
       (ocrFromText raw).currency = some ("$".toList)) ∧
    (∀ (raw tok : Str), curSearchFirst raw = some tok → rsFamily tok = true →
       detectStore (linesOf raw) raw ≠ "indian_grocery" →
       ((extractTotal (linesOf raw)).2 = none ∨
        (extractTotal (linesOf raw)).2 = some ("₹".toList)) →
       (ocrFromText raw).currency = some ("₹".toList)) := by
  constructor
  · intro raw hne h
    have hne2 : raw.isEmpty = false := by
      cases raw with
      | nil => exact absurd rfl hne
      | cons c t => rfl
    rw [ocr_currency_char raw hne2]
    rw [extractTotal_sym_none (linesOf raw) (linesOf_noTok raw h)]
    have hcur : extractCurrency raw = "$".toList := by
      unfold extractCurrency
      rw [h]
    simp only [hcur]
    rw [if_neg]
    intro hcond
    rw [Bool.and_eq_true] at hcond
    have := hcond.2
    simp at this
  · intro raw tok h1 h2 h3 h4
    have hne2 : raw.isEmpty = false := by
      cases raw with
      | nil => simp [curSearchFirst, searchTopO, searchFromO, eatCurSymT] at h1
      | cons c t => rfl
    rw [ocr_currency_char raw hne2]
    have hstore : (detectStore (linesOf raw) raw == "indian_grocery") = false := by
      rw [beq_eq_false_iff_ne]
      exact h3
    have hcur : extractCurrency raw = "₹".toList := by
      show (match curSearchFirst raw with
            | some t => normSym t
            | none => "$".toList) = "₹".toList
      rw [h1]
      show normSym tok = "₹".toList
      simp [normSym, h2]
    rcases h4 with h4 | h4
    · rw [h4, hcur, hstore]
      simp
    · rw [h4, hstore]
      simp

set_option maxRecDepth 2000 in
/-- Witness for the amended C9 at concrete raw texts. -/
theorem c9_currency_field_witness :
    (ocrFromText ("TOTAL 5.00".toList)).currency = some ("$".toList) ∧
    (ocrFromText ("Rs. 45.00".toList)).currency = some ("₹".toList) := by
  constructor
  · exact c9_currency_field.1 ("TOTAL 5.00".toList) (by decide) (by decide)
  · exact c9_currency_field.2 ("Rs. 45.00".toList) ("Rs.".toList) (by decide)
      (by decide) (by decide) (Or.inr (by decide))

/-- C7: empty detector output yields a complete record — empty raw text,
no lines or items, all scalar fields null, item count 0 and detected
store `"unknown"`. -/
theorem c7_empty_input :
    ocrFromText [] =
      ⟨[], [], [], none, none, none, none, none, none, none, 0, "unknown"⟩ := rfl

/-- C10: before item parsing the pipeline discards the first 2 lines when
there are more than 6 lines, and the first line when there are 3 to 6
lines — items come from the remaining lines only, while the field
extractors scan the full line list; concretely, on a 7-line receipt whose
first two lines carry an item ("MILK"/3.99), that item is produced when
parsing all lines but is absent from the returned record, whose total is
still extracted from the full list. -/
theorem c10_skip_leading_lines :
    (∀ raw : Str, 6 < (linesOf raw).length →
       (ocrFromText raw).items =
         validateItems
           (extractItems ((linesOf raw).drop 2) (extractTotal (linesOf raw)).1
             (detectStore (linesOf raw) raw))
           (extractTotal (linesOf raw)).1 (extractSubtotal (linesOf raw))) ∧
    (∀ raw : Str, 2 < (linesOf raw).length → (linesOf raw).length ≤ 6 →
       (ocrFromText raw).items =
         validateItems
           (extractItems ((linesOf raw).drop 1) (extractTotal (linesOf raw)).1
             (detectStore (linesOf raw) raw))
           (extractTotal (linesOf raw)).1 (extractSubtotal (linesOf raw))) ∧
    ((ocrFromText demoRaw).items =
       [⟨"BREAD".toList, 1, mkRat 5 2⟩, ⟨"EGGS".toList, 1, mkRat 4 1⟩,
        ⟨"CHEESE".toList, 1, mkRat 5 4⟩, ⟨"JAM".toList, 1, mkRat 7 4⟩] ∧
     (ocrFromText demoRaw).total = some (mkRat 19 2) ∧
     (⟨"MILK".toList, 1, mkRat 399 100⟩ : Item) ∈
       extractItems (linesOf demoRaw) (some (mkRat 19 2)) "generic" ∧
     ∀ it ∈ (ocrFromText demoRaw).items, it.name ≠ "MILK".toList) := by
  refine ⟨?_, ?_, ?_, ?_, ?_, ?_⟩
  · intro raw h
    have hne : raw.isEmpty = false := by
      cases raw with
      | nil =>
        have h0 : linesOf ([] : Str) = [] := rfl
        rw [h0] at h
        simp at h
      | cons c t => rfl
    have hskip : skipCount (linesOf raw).length = 2 := by
      unfold skipCount
      rw [if_pos h]
    simp only [ocrFromText, hne, Bool.false_eq_true, if_false, hskip]
  · intro raw h1 h2
    have hne : raw.isEmpty = false := by
      cases raw with
      | nil =>
        have h0 : linesOf ([] : Str) = [] := rfl
        rw [h0] at h1
        simp at h1
      | cons c t => rfl
    have hskip : skipCount (linesOf raw).length = 1 := by
      unfold skipCount
      rw [if_neg (by omega), if_pos h1]
    simp only [ocrFromText, hne, Bool.false_eq_true, if_false, hskip]
  · with_unfolding_all decide
  · with_unfolding_all decide
  · with_unfolding_all decide
  · with_unfolding_all decide

/-- Witness for C10 at concrete receipts of 7 and 3 lines. -/
theorem c10_skip_leading_lines_witness :
    ((ocrFromText demoRaw).items =
       validateItems
         (extractItems ((linesOf demoRaw).drop 2) (extractTotal (linesOf demoRaw)).1
           (detectStore (linesOf demoRaw) demoRaw))
         (extractTotal (linesOf demoRaw)).1 (extractSubtotal (linesOf demoRaw))) ∧
    ((ocrFromText ("A\nBC 1.00\nTOTAL 1.00".toList)).items =
       validateItems
         (extractItems ((linesOf ("A\nBC 1.00\nTOTAL 1.00".toList)).drop 1)
           (extractTotal (linesOf ("A\nBC 1.00\nTOTAL 1.00".toList))).1
           (detectStore (linesOf ("A\nBC 1.00\nTOTAL 1.00".toList))
             ("A\nBC 1.00\nTOTAL 1.00".toList)))
         (extractTotal (linesOf ("A\nBC 1.00\nTOTAL 1.00".toList))).1
         (extractSubtotal (linesOf ("A\nBC 1.00\nTOTAL 1.00".toList)))) := by
  constructor
  · exact c10_skip_leading_lines.1 demoRaw (by decide)
  · exact c10_skip_leading_lines.2.1 ("A\nBC 1.00\nTOTAL 1.00".toList)
      (by decide) (by decide)

end OcrService
